import Mathlib

/-!
yt-dlp-tui: session state machine and download-stream coordinator

A shallow embedding of `src/main.cpp` and the properties of its specification.

Modelling conventions.
* A C++ `std::string` is a Lean `String`, one `Char` per C++ `char`.
* The global variables of `main.cpp` are the fields of `Globals`; every function
  that touches them takes the globals and returns the updated globals.
* `MUSIC_DIR` is a compile-time macro (set by the build system); it is a parameter.
* The operating system's filesystem is a parameter: a record of operations over an
  abstract world type `σ` (`Filesystem σ`).
* `move_file_calls` is an observation field with no counterpart in the program: it
  records, in order, the argument of every call of `move_file`.
* A function that can fail to return (a thread blocked for ever, or the process
  ended by an uncaught exception) returns `Option`, `none` standing for "does not
  return".
-/

namespace YtDlpTui

/-! ## Data model -/

/-- The `enum class AppState` of the program. -/
inductive AppState where
  | WAITING_FOR_SONG
  | DOWNLOADING
  | ORGANIZING
  | CREATING_FOLDER
  deriving DecidableEq, Repr

/-- One entry produced by `fs::directory_iterator`: its path, and what
`entry.is_directory()` answers for it. -/
structure DirEntry where
  path : String
  is_directory : Bool
  deriving DecidableEq, Repr

/-- The `std::filesystem` primitives used by the program, over a world type `σ`.
* `fs_exists w p` is `fs::exists(p)`: `.error what` when it throws a `filesystem_error`.
* `fs_create_directory w p` is `fs::create_directory(p)`: the new world, or `.error what`.
* `fs_rename w a b` is `fs::rename(a, b, ec)`: the new world and `ec.message()` when
  `ec` is set.
* `fs_directory_iterator w p` is the range-for over `fs::directory_iterator(p)`: the
  entries the loop body sees, and `some what` when the iteration then throws a
  `filesystem_error` (at construction, at an increment, or in `is_directory`). -/
structure Filesystem (σ : Type) where
  fs_exists : σ → String → Except String Bool
  fs_create_directory : σ → String → Except String σ
  fs_rename : σ → String → String → σ × Option String
  fs_directory_iterator : σ → String → List DirEntry × Option String

/-- The global variables of `main.cpp` (the ncurses windows apart), the filesystem
world, and the observation field `move_file_calls`. -/
structure Globals (σ : Type) where
  current_state : AppState
  output_lines : List String
  last_downloaded_file : String
  music_dirs : List String
  world : σ
  move_file_calls : List String

/-! ## Library functions of C++ used by the program -/

deriving instance DecidableEq for Except

/-- The exceptions `std::stoi` throws. -/
inductive StoiError where
  | invalid_argument
  | out_of_range
  deriving DecidableEq, Repr

/-- The `isspace` of the C locale. -/
def isspace (c : Char) : Bool :=
  c = ' ' || c = '\t' || c = '\n' || c = '\x0b' || c = '\x0c' || c = '\r'

/-- The value of a run of decimal digits, most significant digit first. -/
def digits_value (ds : List Char) : Nat :=
  ds.foldl (fun a c => 10 * a + (c.toNat - 48)) 0

/-- The `INT_MAX` of a 32-bit `int`. -/
def INT_MAX : Int := 2147483647

/-- The `INT_MIN` of a 32-bit `int`. -/
def INT_MIN : Int := -2147483648

/-- The optional sign in front of the digits: whether it is a minus, and what follows. -/
def skip_sign : List Char → Bool × List Char
  | '-' :: r => (true, r)
  | '+' :: r => (false, r)
  | r => (false, r)

/-- `std::stoi(s)` (base 10): skip leading white space, take an optional sign, then
the longest run of decimal digits; whatever follows the digits is ignored. No digit:
`invalid_argument`. A value that does not fit `int`: `out_of_range`. -/
def stoi (s : String) : Except StoiError Int :=
  let signed := skip_sign (s.data.dropWhile isspace)
  let ds := signed.2.takeWhile Char.isDigit
  if ds = [] then .error .invalid_argument
  else
    let v : Int := if signed.1 then -(digits_value ds : Int) else (digits_value ds : Int)
    if v < INT_MIN ∨ INT_MAX < v then .error .out_of_range else .ok v

/-- `std::to_string` on a `size_t`: the decimal numeral. -/
def to_string (n : Nat) : String := Nat.repr n

/-- `fs::path(p).filename().string()`: what follows the last `/` of `p`. -/
def path_filename (p : String) : String :=
  String.mk (p.data.reverse.takeWhile (fun c => c ≠ '/')).reverse

/-- `(fs::path(a) / b).string()` for a relative `b`: a separator is inserted unless
`a` is empty or already ends in one. -/
def path_append (a b : String) : String :=
  if a.data = [] ∨ a.data.getLast? = some '/' then a ++ b else a ++ "/" ++ b

/-- `haystack.find(needle)` on lists of characters, counting from `i`: the index of
the first occurrence, `none` for `std::string::npos`. -/
def find_from (needle : List Char) : List Char → Nat → Option Nat
  | [], i => if needle = [] then some i else none
  | c :: cs, i => if needle.isPrefixOf (c :: cs) then some i else find_from needle cs (i + 1)

/-- `haystack.find(needle)`. -/
def find (haystack needle : String) : Option Nat :=
  find_from needle.data haystack.data 0

/-- `s.substr(pos)` for `pos ≤ s.size()`. -/
def substr (s : String) (pos : Nat) : String :=
  String.mk (s.data.drop pos)

/-- `a < b` on `std::string` (`operator<`): lexicographic comparison of the characters
by their unsigned value, a proper prefix coming first. -/
def string_less : List Char → List Char → Bool
  | _, [] => false
  | [], _ :: _ => true
  | a :: as, b :: bs =>
    if a.toNat < b.toNat then true
    else if b.toNat < a.toNat then false
    else string_less as bs

/-- `a` does not come after `b`: `!(b < a)` with the `operator<` of `std::string`. -/
def string_le (a b : String) : Prop := string_less b.data a.data = false

instance : DecidableRel string_le := fun a b =>
  inferInstanceAs (Decidable (string_less b.data a.data = false))

/-- `std::sort(v.begin(), v.end())` on strings: the ascending arrangement of `v` under
`operator<`. The order is total, so the sorted arrangement is unique and does not
depend on the sorting algorithm. -/
def sort (v : List String) : List String :=
  v.insertionSort string_le

/-! ## The program -/

section Program

variable {σ : Type} (MUSIC_DIR : String) (fs : Filesystem σ)

/-- `add_to_output(line)`, called by a thread that does not hold `output_mutex`:
lock, `push_back`, unlock. -/
def add_to_output (line : String) (g : Globals σ) : Globals σ :=
  { g with output_lines := g.output_lines ++ [line] }

/-- The second half of the `try` block of `move_file`: the rename of the downloaded
file into `dest_path`, and the line that reports it. -/
def move_file_rename (dest_folder dest_path : String) (g : Globals σ) : Globals σ :=
  let new_file_path := path_append dest_path (path_filename g.last_downloaded_file)
  match fs.fs_rename g.world g.last_downloaded_file new_file_path with
  | (w, some message) =>
    add_to_output ("Error al mover el archivo: " ++ message) { g with world := w }
  | (w, none) =>
    add_to_output ("Archivo movido a: " ++ dest_folder) { g with world := w }

/-- `move_file(dest_folder)`. A `filesystem_error` thrown by `fs::exists` or by
`fs::create_directory` is caught and logged. -/
def move_file (dest_folder : String) (g : Globals σ) : Globals σ :=
  let g0 : Globals σ := { g with move_file_calls := g.move_file_calls ++ [dest_folder] }
  let dest_path := MUSIC_DIR ++ "/" ++ dest_folder
  match fs.fs_exists g0.world dest_path with
  | .error what => add_to_output ("Error del sistema de archivos: " ++ what) g0
  | .ok true => move_file_rename fs dest_folder dest_path g0
  | .ok false =>
    match fs.fs_create_directory g0.world dest_path with
    | .error what => add_to_output ("Error del sistema de archivos: " ++ what) g0
    | .ok w =>
      move_file_rename fs dest_folder dest_path
        (add_to_output ("Carpeta creada: " ++ dest_folder) { g0 with world := w })

/-- The three statements that end `handle_organization_input` and
`handle_create_folder_input`: separator, prompt, state back to `WAITING_FOR_SONG`. -/
def back_to_waiting (g : Globals σ) : Globals σ :=
  { add_to_output "Introduce un nuevo nombre de canción o presiona 'q' para salir."
      (add_to_output "-----------------------------" g) with
    current_state := AppState.WAITING_FOR_SONG }

/-- `handle_organization_input(input)`. -/
def handle_organization_input (input : String) (g : Globals σ) : Globals σ :=
  if input = "q" ∨ input = "Q" then
    back_to_waiting (add_to_output ("Archivo conservado en " ++ MUSIC_DIR ++ ".") g)
  else if input = "n" ∨ input = "N" then
    { add_to_output "Por favor, introduce el nombre de la nueva carpeta:" g with
      current_state := AppState.CREATING_FOLDER }
  else
    match stoi input with
    | .ok choice =>
      if h : 0 < choice ∧ choice.toNat ≤ g.music_dirs.length then
        back_to_waiting
          (move_file MUSIC_DIR fs (g.music_dirs.get ⟨choice.toNat - 1, by omega⟩) g)
      else
        back_to_waiting (add_to_output "Opción inválida." g)
    | .error .invalid_argument =>
      back_to_waiting
        (add_to_output "Entrada inválida. Por favor, elige un número, 'N', o 'Q'." g)
    | .error .out_of_range =>
      back_to_waiting (add_to_output "Opción fuera de rango." g)

/-- `handle_create_folder_input(folder_name)`. -/
def handle_create_folder_input (folder_name : String) (g : Globals σ) : Globals σ :=
  if folder_name ≠ "" then
    back_to_waiting (move_file MUSIC_DIR fs folder_name g)
  else
    back_to_waiting (add_to_output "El nombre de la carpeta no puede estar vacío." g)

/-- What happens to a thread that locks the `std::mutex` it already owns. C++ leaves
this undefined; with the usual pthread-backed `std::mutex` the thread blocks for ever
(`blocks`). `proceeds` is the other reading, where the second lock goes through. -/
inductive Relock where
  | blocks
  | proceeds
  deriving DecidableEq, Repr

/-- `add_to_output(line)` called by a thread that already holds `output_mutex`. -/
def add_to_output_holding (relock : Relock) (line : String) (g : Globals σ) :
    Option (Globals σ) :=
  match relock with
  | .blocks => none
  | .proceeds => some (add_to_output line g)

/-- The range-for of `show_organization_menu` over the directory entries: the file
name of every entry that is a directory is pushed onto `music_dirs`. -/
def collect_dirs (entries : List DirEntry) (music_dirs : List String) : List String :=
  entries.foldl
    (fun dirs entry => if entry.is_directory then dirs ++ [path_filename entry.path] else dirs)
    music_dirs

/-- The numbering loop of `show_organization_menu`, from index `i` on: one line
`to_string(i + 1) + ". " + music_dirs[i]` per folder. -/
def menu_numbered : Nat → List String → List String
  | _, [] => []
  | i, d :: ds => (to_string (i + 1) ++ ". " ++ d) :: menu_numbered (i + 1) ds

/-- `show_organization_menu()`. It holds `output_mutex` from its first line to its
return, so the `add_to_output` of its `catch` block is a lock by the owner. -/
def show_organization_menu (relock : Relock) (g : Globals σ) : Option (Globals σ) :=
  let g1 : Globals σ :=
    { g with
      output_lines :=
        ["--- Descarga Finalizada ---",
         "Archivo: " ++ path_filename g.last_downloaded_file,
         "¿Dónde deseas mover el archivo?"],
      music_dirs := [] }
  match fs.fs_directory_iterator g1.world MUSIC_DIR with
  | (entries, some what) =>
    let g2 : Globals σ := { g1 with music_dirs := collect_dirs entries g1.music_dirs }
    (add_to_output_holding relock ("Error al leer los directorios de música: " ++ what) g2).map
      (fun h => { h with current_state := AppState.WAITING_FOR_SONG })
  | (entries, none) =>
    let dirs := sort (collect_dirs entries g1.music_dirs)
    some
      { g1 with
        music_dirs := dirs,
        output_lines :=
          g1.output_lines ++ menu_numbered 0 dirs ++
            ["-----------------------------",
             "N. Crear nueva carpeta",
             "Q. Dejar en " ++ MUSIC_DIR,
             "Introduce una opción y presiona Enter:"] }

/-- The marker `dest_marker` of `run_download`. -/
def dest_marker : String := "[ExtractAudio] Destination: "

/-- The characters `fgets` stores when it may still store `k` of them: it stops after
a newline, at the end of the stream, or when `k` characters are stored. The second
component is what is left of the stream. -/
def fgets_read : Nat → List Char → List Char × List Char
  | 0, s => ([], s)
  | _ + 1, [] => ([], [])
  | k + 1, c :: cs =>
    if c = '\n' then ([c], cs)
    else (c :: (fgets_read k cs).1, (fgets_read k cs).2)

/-- `fgets(buffer, n, stream)`: `none` (a null pointer) at the end of the stream,
otherwise the at most `n - 1` characters stored and the rest of the stream. -/
def fgets (n : Nat) (stream : List Char) : Option (List Char × List Char) :=
  match stream with
  | [] => none
  | _ :: _ => some (fgets_read (n - 1) stream)

/-- `std::string line = buffer.data();`: the buffer read as a C string, which ends at
the first NUL. -/
def c_string (buffer : List Char) : String :=
  String.mk (buffer.takeWhile (fun c => c ≠ '\x00'))

/-- The body of the read loop of `run_download` after `line` is built: strip one
trailing newline, append the line to the log, and record what follows the marker. -/
def process_line (line : String) (g : Globals σ) : Globals σ :=
  let line1 : String :=
    if line.data ≠ [] ∧ line.data.getLast? = some '\n' then String.mk line.data.dropLast
    else line
  let g1 := add_to_output line1 g
  match find line1 dest_marker with
  | some pos => { g1 with last_downloaded_file := substr line1 (pos + dest_marker.length) }
  | none => g1

/-- The `while (fgets(buffer.data(), buffer.size(), pipe.get()) != nullptr)` loop of
`run_download` with its 512-byte buffer, on the output `stream` of the process. Every
iteration consumes at least one character; `fuel` bounds the number of iterations
and `none` means the bound was reached. -/
def read_loop : Nat → List Char → Globals σ → Option (Globals σ)
  | 0, _, _ => none
  | fuel + 1, stream, g =>
    match fgets 512 stream with
    | none => some g
    | some (buffer, rest) => read_loop fuel rest (process_line (c_string buffer) g)

/-- The artifact-locating step of the read loop run over a sequence of lines. -/
def feed_lines (lines : List String) (g : Globals σ) : Globals σ :=
  lines.foldl (fun h line => process_line line h) g

/-- The first two statements of `run_download`. -/
def run_download_begin (g : Globals σ) : Globals σ :=
  { g with current_state := AppState.DOWNLOADING, last_downloaded_file := "" }

/-- The command line `run_download` builds for `song_name`. -/
def command (song_name : String) : String :=
  "yt-dlp -x --audio-format mp3 -o \"" ++ MUSIC_DIR ++ "/%(title)s.%(ext)s\" \"ytsearch:" ++
    song_name ++ "\" 2>&1"

/-- What `run_download` does once the stream has ended. An exception of `fs::exists`
is not caught anywhere in the thread, which ends the process: `none`. -/
def run_download_end (relock : Relock) (g : Globals σ) : Option (Globals σ) :=
  let failed : Globals σ :=
    { add_to_output
        "--- No se pudo determinar el archivo descargado. Volviendo al inicio. ---" g with
      current_state := AppState.WAITING_FOR_SONG }
  if g.last_downloaded_file ≠ "" then
    match fs.fs_exists g.world g.last_downloaded_file with
    | .error _ => none
    | .ok true =>
      (show_organization_menu MUSIC_DIR fs relock g).map
        (fun h => { h with current_state := AppState.ORGANIZING })
    | .ok false => some failed
  else some failed

/-- `run_download(song_name)` from its third statement on. `process` is what `popen`
gives: `none` when the command could not be launched, otherwise the whole combined
output of the process. The world of `g` is the filesystem as the process leaves it. -/
def run_download_rest (relock : Relock) (process : Option String) (song_name : String)
    (g : Globals σ) : Option (Globals σ) :=
  let g1 := add_to_output ("Ejecutando: " ++ command MUSIC_DIR song_name) g
  match process with
  | none =>
    some
      { add_to_output "Error: no se pudo ejecutar el comando yt-dlp." g1 with
        current_state := AppState.WAITING_FOR_SONG }
  | some output =>
    (read_loop (output.data.length + 1) output.data g1).bind
      (run_download_end MUSIC_DIR fs relock)

/-- `run_download(song_name)`. -/
def run_download (relock : Relock) (process : Option String) (song_name : String)
    (g : Globals σ) : Option (Globals σ) :=
  run_download_rest MUSIC_DIR fs relock process song_name (run_download_begin g)

/-- The state of the loop of `main`: the globals, the local `input_str`, whether the
loop was left with `break`, and the arguments of the `run_download` threads it has
detached, in order. -/
structure MainLoop (σ : Type) where
  g : Globals σ
  input_str : String
  exited : Bool
  detached : List String

/-- The `ERR` of ncurses. -/
def ERR : Int := -1

/-- The `KEY_BACKSPACE` of ncurses. -/
def KEY_BACKSPACE : Int := 263

/-- One iteration of the `while (true)` loop of `main` in which `wgetch` returns `ch`.
Drawing changes nothing in the state. -/
def main_key (ch : Int) (m : MainLoop σ) : MainLoop σ :=
  if ch ≠ ERR then
    if ch = 10 then
      if m.input_str = "q" ∨ m.input_str = "Q" then
        if m.g.current_state = AppState.WAITING_FOR_SONG then { m with exited := true }
        else
          { m with
            g := add_to_output "Operación cancelada. Introduce un nombre de canción."
              { m.g with current_state := AppState.WAITING_FOR_SONG },
            input_str := "" }
      else if m.input_str ≠ "" then
        let m1 : MainLoop σ :=
          if m.g.current_state = AppState.WAITING_FOR_SONG then
            { m with detached := m.detached ++ [m.input_str] }
          else if m.g.current_state = AppState.ORGANIZING then
            { m with g := handle_organization_input MUSIC_DIR fs m.input_str m.g }
          else if m.g.current_state = AppState.CREATING_FOLDER then
            { m with g := handle_create_folder_input MUSIC_DIR fs m.input_str m.g }
          else m
        { m1 with input_str := "" }
      else m
    else if ch = KEY_BACKSPACE ∨ ch = 127 ∨ ch = 8 then
      if m.input_str ≠ "" then { m with input_str := String.mk m.input_str.data.dropLast }
      else m
    else if 32 ≤ ch ∧ ch ≤ 126 then
      { m with input_str := m.input_str.push (Char.ofNat ch.toNat) }
    else m
  else m

/-- The line `line` is in the buffer and Enter is pressed. -/
def submit (line : String) (g : Globals σ) : MainLoop σ :=
  main_key MUSIC_DIR fs 10 { g := g, input_str := line, exited := false, detached := [] }

end Program

/-! ## The input loop and the download threads together -/

section Interleaving

variable {σ : Type} (MUSIC_DIR : String) (fs : Filesystem σ)

/-- The program as a whole: the globals, whether `main` has left its loop, the
detached threads that have not yet run their first statement (`launched`, by
`song_name`) and those that have and have not returned (`running`). -/
structure System (σ : Type) where
  g : Globals σ
  exited : Bool
  launched : List String
  running : List String

/-- The events of the program.
* `enter b`: Enter is pressed with `b` in the buffer.
* `starts`: the oldest launched thread runs the first two statements of `run_download`.
* `finishes i process`: the `i`-th running thread runs the rest of `run_download`,
  its process having given `process`, and returns. -/
inductive Event where
  | enter (b : String)
  | starts
  | finishes (i : Nat) (process : Option String)

/-- The number of download runners in flight. -/
def System.in_flight (s : System σ) : Nat := s.launched.length + s.running.length

/-- One event. An event that cannot happen (nothing to start, no such runner, the loop
already left, a runner that does not return) leaves the system as it is. -/
def step (relock : Relock) (s : System σ) : Event → System σ
  | .enter b =>
    if s.exited then s
    else
      let m := submit MUSIC_DIR fs b s.g
      { s with g := m.g, exited := m.exited, launched := s.launched ++ m.detached }
  | .starts =>
    match s.launched with
    | [] => s
    | song_name :: others =>
      { s with
        g := run_download_begin s.g,
        launched := others,
        running := s.running ++ [song_name] }
  | .finishes i process =>
    match s.running.get? i with
    | none => s
    | some song_name =>
      match run_download_rest MUSIC_DIR fs relock process song_name s.g with
      | none => s
      | some g => { s with g := g, running := s.running.eraseIdx i }

/-- The system after a sequence of events. -/
def run (relock : Relock) (s : System σ) (events : List Event) : System σ :=
  events.foldl (step MUSIC_DIR fs relock) s

/-- The program at start-up, before the first key: state `WAITING_FOR_SONG`, the two
welcome lines in the log, no thread. -/
def initial (w : σ) : System σ :=
  { g :=
      { current_state := AppState.WAITING_FOR_SONG,
        output_lines :=
          ["Bienvenido. Escribe el nombre de una canción y presiona Enter.",
           "Escribe 'q' y presiona Enter para salir."],
        last_downloaded_file := "",
        music_dirs := [],
        world := w,
        move_file_calls := [] },
    exited := false,
    launched := [],
    running := [] }

/-- An event is calm in a system when it is not an Enter pressed while a launched
thread has not started yet, and not a `"q"` or `"Q"` submitted in state `DOWNLOADING`. -/
def calm (s : System σ) : Event → Bool
  | .enter b =>
    s.launched.isEmpty &&
      !((b = "q" || b = "Q") && s.g.current_state = AppState.DOWNLOADING)
  | _ => true

/-- Every event of the sequence is calm in the system it happens in. -/
def all_calm (relock : Relock) : System σ → List Event → Bool
  | _, [] => true
  | s, e :: es => calm s e && all_calm relock (step MUSIC_DIR fs relock s e) es

/-- The invariant behind "one runner at a time". -/
def one_runner (s : System σ) : Prop :=
  s.in_flight ≤ 1 ∧
  (s.running ≠ [] → s.g.current_state = AppState.DOWNLOADING) ∧
  (s.launched ≠ [] → s.g.current_state = AppState.WAITING_FOR_SONG)

end Interleaving

/-! ## Definitions that follow the wording of the specification -/

/-- The newline-delimited lines of a text, each without its newline: a newline ends
the current line, and characters after the last newline form a last line. -/
def text_lines : List Char → List (List Char)
  | [] => []
  | c :: cs =>
    if c = '\n' then [] :: text_lines cs
    else
      match text_lines cs with
      | [] => [[c]]
      | l :: ls => (c :: l) :: ls

/-- The number of positions of `line` at which `needle` occurs. -/
def occurrences (needle : List Char) : List Char → Nat
  | [] => if needle = [] then 1 else 0
  | c :: cs => (if needle.isPrefixOf (c :: cs) then 1 else 0) + occurrences needle cs

/-- One trailing newline removed. -/
def strip_newline (s : List Char) : List Char :=
  if s.getLast? = some '\n' then s.dropLast else s

/-! ## A small filesystem to run the model on concrete inputs -/

/-- A world with a flat library: the paths of the existing files, the paths of the
existing directories, and the error a directory listing runs into, if any. -/
structure SimWorld where
  files : List String
  dirs : List String
  listing_error : Option String
  deriving DecidableEq, Repr

/-- The filesystem operations on `SimWorld`. -/
def simFs : Filesystem SimWorld where
  fs_exists := fun w p => .ok (decide (p ∈ w.files ∨ p ∈ w.dirs))
  fs_create_directory := fun w p => .ok { w with dirs := w.dirs ++ [p] }
  fs_rename := fun w a b =>
    if a ∈ w.files then ({ w with files := b :: w.files.erase a }, none)
    else (w, some "No such file or directory")
  fs_directory_iterator := fun w _ =>
    (w.files.map (fun p => DirEntry.mk p false) ++ w.dirs.map (fun p => DirEntry.mk p true),
      w.listing_error)

/-- A library `/lib` holding the download `/lib/test song.mp3`, a stray file and the
folders `Rock` and `Jazz`. -/
def simWorld : SimWorld :=
  { files := ["/lib/test song.mp3", "/lib/notes.txt"],
    dirs := ["/lib/Rock", "/lib/Jazz"],
    listing_error := none }

/-- Globals over `simWorld` in a given state, with the folders `Jazz` and `Rock` as
candidates and `/lib/test song.mp3` as the downloaded file. -/
def simGlobals (st : AppState) : Globals SimWorld :=
  { current_state := st,
    output_lines := [],
    last_downloaded_file := "/lib/test song.mp3",
    music_dirs := ["Jazz", "Rock"],
    world := simWorld,
    move_file_calls := [] }

/-- Globals at start-up over the sample library, nothing downloaded yet. -/
def simStart (w : SimWorld) : Globals SimWorld :=
  { current_state := AppState.WAITING_FOR_SONG,
    output_lines := ["Bienvenido. Escribe el nombre de una canción y presiona Enter."],
    last_downloaded_file := "",
    music_dirs := [],
    world := w,
    move_file_calls := [] }

/-- The sample library with a root whose listing fails. -/
def simWorldUnreadable : SimWorld :=
  { simWorld with listing_error := some "Permission denied" }

/-- The operations of `simFs`, except that `fs::exists` throws a `filesystem_error` on a
path whose file name is longer than 255 characters, as it does when the underlying
`stat` fails with `ENAMETOOLONG`. -/
def simFsNameMax : Filesystem SimWorld :=
  { simFs with
    fs_exists := fun w p =>
      if 255 < (path_filename p).length then .error "File name too long"
      else simFs.fs_exists w p }

/-- A path in the sample library whose file name has 304 characters; no such file
exists. -/
def simLongPath : String :=
  "/lib/" ++ String.mk (List.replicate 300 'a') ++ ".mp3"

/-- A process output that announces `simLongPath` as the destination. -/
def simLongOutput : String :=
  "[ExtractAudio] Destination: " ++ simLongPath ++ "\n"

/-- The three error lines of `handle_organization_input`. -/
def organizing_errors : List String :=
  ["Opción inválida.",
   "Entrada inválida. Por favor, elige un número, 'N', o 'Q'.",
   "Opción fuera de rango."]


/-! ## Decimal numerals and `stoi` -/

theorem digitChar_isDigit : ∀ d, d < 10 → (Nat.digitChar d).isDigit = true := by
  decide

theorem digitChar_value : ∀ d, d < 10 → (Nat.digitChar d).toNat - 48 = d := by
  decide

theorem toDigitsCore_digits (fuel : Nat) : ∀ (n : Nat) (ds : List Char),
    (∀ c ∈ ds, c.isDigit = true) →
    ∀ c ∈ Nat.toDigitsCore 10 fuel n ds, c.isDigit = true := by
  induction fuel with
  | zero => intro n ds h; simpa [Nat.toDigitsCore] using h
  | succ fuel ih =>
    intro n ds h
    have hd : (Nat.digitChar (n % 10)).isDigit = true :=
      digitChar_isDigit _ (Nat.mod_lt _ (by decide))
    have hcons : ∀ c ∈ Nat.digitChar (n % 10) :: ds, c.isDigit = true := by
      intro c hc
      rcases List.mem_cons.mp hc with rfl | hc
      · exact hd
      · exact h c hc
    simp only [Nat.toDigitsCore]
    split
    · exact hcons
    · exact ih _ _ hcons

theorem toDigitsCore_ne_nil (fuel n : Nat) (ds : List Char) :
    Nat.toDigitsCore 10 (fuel + 1) n ds ≠ [] := by
  induction fuel generalizing n ds with
  | zero => simp [Nat.toDigitsCore]
  | succ fuel ih =>
    simp only [Nat.toDigitsCore]
    split
    · simp
    · exact ih _ _

theorem toDigitsCore_value (fuel : Nat) : ∀ (n : Nat) (ds : List Char), n < fuel →
    (Nat.toDigitsCore 10 fuel n ds).foldl (fun a c => 10 * a + (c.toNat - 48)) 0 =
      ds.foldl (fun a c => 10 * a + (c.toNat - 48)) n := by
  induction fuel with
  | zero => intro n ds h; omega
  | succ fuel ih =>
    intro n ds h
    have hv := digitChar_value (n % 10) (Nat.mod_lt _ (by decide))
    simp only [Nat.toDigitsCore]
    split
    · rename_i h0
      have : n % 10 = n := by omega
      rw [this] at hv
      simp [List.foldl, this, hv]
    · rename_i h0
      rw [ih (n / 10) _ (by omega)]
      simp only [List.foldl, hv]
      congr 1
      omega

theorem to_string_digits (k : Nat) : ∀ c ∈ (to_string k).data, c.isDigit = true := by
  simpa [to_string, Nat.repr, Nat.toDigits] using
    toDigitsCore_digits (k + 1) k [] (by simp)

theorem to_string_ne_nil (k : Nat) : (to_string k).data ≠ [] := by
  simpa [to_string, Nat.repr, Nat.toDigits] using toDigitsCore_ne_nil k k []

theorem to_string_value (k : Nat) : digits_value (to_string k).data = k := by
  simpa [to_string, Nat.repr, Nat.toDigits, digits_value] using
    toDigitsCore_value (k + 1) k [] (by omega)

theorem isDigit_not_space (c : Char) (h : c.isDigit = true) : isspace c = false := by
  have h1 : c ≠ ' ' := by rintro rfl; exact absurd h (by decide)
  have h2 : c ≠ '\t' := by rintro rfl; exact absurd h (by decide)
  have h3 : c ≠ '\n' := by rintro rfl; exact absurd h (by decide)
  have h4 : c ≠ '\x0b' := by rintro rfl; exact absurd h (by decide)
  have h5 : c ≠ '\x0c' := by rintro rfl; exact absurd h (by decide)
  have h6 : c ≠ '\r' := by rintro rfl; exact absurd h (by decide)
  simp [isspace, h1, h2, h3, h4, h5, h6]

/-- On a non-empty run of digits `stoi` gives the value of the run when it fits `int`. -/
theorem stoi_digits (s : String) (hne : s.data ≠ []) (hd : ∀ c ∈ s.data, c.isDigit = true)
    (hfit : (digits_value s.data : Int) ≤ INT_MAX) :
    stoi s = .ok (digits_value s.data : Int) := by
  obtain ⟨l⟩ := s
  cases l with
  | nil => exact absurd rfl hne
  | cons c cs =>
    have hc : c.isDigit = true := hd c (by simp)
    have hsp : isspace c = false := isDigit_not_space c hc
    have hm : c ≠ '-' := by rintro rfl; exact absurd hc (by decide)
    have hp : c ≠ '+' := by rintro rfl; exact absurd hc (by decide)
    have htw : List.takeWhile Char.isDigit (c :: cs) = c :: cs := by
      rw [List.takeWhile_eq_self_iff]
      exact hd
    have hmin : ¬ ((digits_value (c :: cs) : Int) < INT_MIN) := by
      have : (0 : Int) ≤ (digits_value (c :: cs) : Int) := Int.ofNat_nonneg _
      simp only [INT_MIN]; omega
    have hmax : ¬ (INT_MAX < (digits_value (c :: cs) : Int)) := by
      simpa using hfit
    have hsign : skip_sign (c :: cs) = (false, c :: cs) := by
      unfold skip_sign
      split
      · rename_i heq; simp at heq; exact absurd heq.1 hm
      · rename_i heq; simp at heq; exact absurd heq.1 hp
      · rfl
    simp [stoi, List.dropWhile_cons, hsp, hsign, htw, hmin, hmax]

/-- `stoi` reads the decimal numeral of `k` back as `k`, as long as `k` fits `int`. -/
theorem stoi_to_string (k : Nat) (hk : k ≤ 2147483647) : stoi (to_string k) = .ok (k : Int) := by
  have h := stoi_digits (to_string k) (to_string_ne_nil k) (to_string_digits k)
    (by rw [to_string_value]; simp only [INT_MAX]; omega)
  rwa [to_string_value] at h

theorem to_string_not_sentinel (k : Nat) (c : Char) (hc : c.isDigit = false) :
    to_string k ≠ String.mk [c] := by
  intro h
  have := to_string_digits k c (by rw [h]; simp)
  rw [hc] at this
  exact absurd this (by decide)


/-! ## The handlers -/

section Handlers

variable {σ : Type} (MUSIC_DIR : String) (fs : Filesystem σ)

/-- What `move_file` leaves untouched: it only appends to the log, changes the world
and is recorded once. -/
theorem move_file_frame (d : String) (g : Globals σ) :
    ∃ (extra : List String) (w : σ), move_file MUSIC_DIR fs d g =
      { g with
        output_lines := g.output_lines ++ extra,
        world := w,
        move_file_calls := g.move_file_calls ++ [d] } := by
  have hren : ∀ (p : String) (h : Globals σ), ∃ (line : String) (w : σ),
      move_file_rename fs d p h = { h with output_lines := h.output_lines ++ [line], world := w } := by
    intro p h
    unfold move_file_rename
    simp only [add_to_output]
    split
    · exact ⟨_, _, rfl⟩
    · exact ⟨_, _, rfl⟩
  unfold move_file
  simp only []
  split
  · exact ⟨[_], g.world, rfl⟩
  · obtain ⟨line, w, h⟩ := hren (MUSIC_DIR ++ "/" ++ d)
      { g with move_file_calls := g.move_file_calls ++ [d] }
    exact ⟨[line], w, by rw [h]⟩
  · split
    · exact ⟨[_], g.world, rfl⟩
    · rename_i w0 _
      obtain ⟨line, w, h⟩ := hren (MUSIC_DIR ++ "/" ++ d)
        (add_to_output ("Carpeta creada: " ++ d)
          { g with move_file_calls := g.move_file_calls ++ [d], world := w0 })
      exact ⟨["Carpeta creada: " ++ d, line], w, by rw [h]; simp [add_to_output]⟩

theorem move_file_calls_eq (d : String) (g : Globals σ) :
    (move_file MUSIC_DIR fs d g).move_file_calls = g.move_file_calls ++ [d] := by
  obtain ⟨extra, w, h⟩ := move_file_frame MUSIC_DIR fs d g
  rw [h]

theorem move_file_state (d : String) (g : Globals σ) :
    (move_file MUSIC_DIR fs d g).current_state = g.current_state := by
  obtain ⟨extra, w, h⟩ := move_file_frame MUSIC_DIR fs d g
  rw [h]

theorem back_to_waiting_calls (g : Globals σ) :
    (back_to_waiting g).move_file_calls = g.move_file_calls := rfl

theorem back_to_waiting_state (g : Globals σ) :
    (back_to_waiting g).current_state = AppState.WAITING_FOR_SONG := rfl

theorem back_to_waiting_lines (g : Globals σ) :
    (back_to_waiting g).output_lines = g.output_lines ++
      ["-----------------------------",
       "Introduce un nuevo nombre de canción o presiona 'q' para salir."] := by
  simp [back_to_waiting, add_to_output]

/-- What `handle_organization_input` does once `stoi` has read a valid choice. -/
theorem handle_organization_input_choice (input : String) (g : Globals σ) (k : Nat)
    (hq : input ≠ "q") (hQ : input ≠ "Q") (hn : input ≠ "n") (hN : input ≠ "N")
    (hstoi : stoi input = .ok (k : Int)) (h1 : 1 ≤ k) (hk : k ≤ g.music_dirs.length) :
    ∃ d, g.music_dirs.get? (k - 1) = some d ∧
      handle_organization_input MUSIC_DIR fs input g =
        back_to_waiting (move_file MUSIC_DIR fs d g) := by
  have hlt : k - 1 < g.music_dirs.length := by omega
  refine ⟨g.music_dirs.get ⟨k - 1, hlt⟩, List.get?_eq_get hlt, ?_⟩
  have hcond : 0 < (k : Int) ∧ (k : Int).toNat ≤ g.music_dirs.length := by
    constructor
    · omega
    · simpa using hk
  unfold handle_organization_input
  simp only [hq, hQ, hn, hN, or_self, if_false, hstoi]
  rw [dif_pos hcond]
  simp

end Handlers


/-! ## Claims about `handle_organization_input` -/

section OrganizingClaims

variable {σ : Type} (MUSIC_DIR : String) (fs : Filesystem σ)

/-- What `handle_organization_input` does when `stoi` throws `out_of_range`. -/
theorem handle_organization_input_out_of_range (input : String) (g : Globals σ)
    (hq : input ≠ "q") (hQ : input ≠ "Q") (hn : input ≠ "n") (hN : input ≠ "N")
    (hstoi : stoi input = .error .out_of_range) :
    handle_organization_input MUSIC_DIR fs input g =
      back_to_waiting (add_to_output "Opción fuera de rango." g) := by
  unfold handle_organization_input
  simp only [hq, hQ, hn, hN, or_self, if_false, hstoi]

/-- C1, amended. For every candidate list `c = g.music_dirs` and every `k` with
`1 ≤ k ≤ |c|` that fits a 32-bit `int` (`k ≤ 2147483647`), `handle_organization_input`
called with the decimal numeral of `k` calls `move_file` exactly once, with the
folder `c[k-1]`, and leaves the state at `WAITING_FOR_SONG`. -/
theorem organizing_numeral_places (g : Globals σ) (k : Nat)
    (h1 : 1 ≤ k) (hk : k ≤ g.music_dirs.length) (hint : k ≤ 2147483647) :
    ∃ d, g.music_dirs.get? (k - 1) = some d ∧
      (handle_organization_input MUSIC_DIR fs (to_string k) g).move_file_calls =
        g.move_file_calls ++ [d] ∧
      (handle_organization_input MUSIC_DIR fs (to_string k) g).current_state =
        AppState.WAITING_FOR_SONG := by
  obtain ⟨d, hd, h⟩ := handle_organization_input_choice MUSIC_DIR fs (to_string k) g k
    (to_string_not_sentinel k 'q' (by decide)) (to_string_not_sentinel k 'Q' (by decide))
    (to_string_not_sentinel k 'n' (by decide)) (to_string_not_sentinel k 'N' (by decide))
    (stoi_to_string k hint) h1 hk
  refine ⟨d, hd, ?_, ?_⟩
  · rw [h, back_to_waiting_calls, move_file_calls_eq]
  · rw [h, back_to_waiting_state]

/-- C1, the witness of the claim: with the candidates `["Jazz", "Rock"]` the input
`"2"` places into `"Rock"`, once, and the state is `WAITING_FOR_SONG`. -/
theorem organizing_numeral_places_witness :
    ∃ d, (simGlobals AppState.ORGANIZING).music_dirs.get? (2 - 1) = some d ∧
      (handle_organization_input "/lib" simFs (to_string 2)
          (simGlobals AppState.ORGANIZING)).move_file_calls =
        (simGlobals AppState.ORGANIZING).move_file_calls ++ [d] ∧
      (handle_organization_input "/lib" simFs (to_string 2)
          (simGlobals AppState.ORGANIZING)).current_state = AppState.WAITING_FOR_SONG :=
  organizing_numeral_places "/lib" simFs (simGlobals AppState.ORGANIZING) 2
    (by decide) (by decide) (by decide)

/-- C1 as stated fails: with 2147483648 candidates, the numeral of `k = 2147483648`
is within `1..|c|`, but `stoi` throws `out_of_range`, `move_file` is not called and
the line "Opción fuera de rango." is logged. -/
theorem organizing_numeral_beyond_int :
    1 ≤ 2147483648 ∧
    2147483648 ≤
      ({ simGlobals AppState.ORGANIZING with
          music_dirs := List.replicate 2147483648 "Jazz" } : Globals SimWorld).music_dirs.length ∧
    (handle_organization_input "/lib" simFs (to_string 2147483648)
      { simGlobals AppState.ORGANIZING with
        music_dirs := List.replicate 2147483648 "Jazz" }).move_file_calls = [] ∧
    (handle_organization_input "/lib" simFs (to_string 2147483648)
      { simGlobals AppState.ORGANIZING with
        music_dirs := List.replicate 2147483648 "Jazz" }).output_lines =
      ["Opción fuera de rango.", "-----------------------------",
       "Introduce un nuevo nombre de canción o presiona 'q' para salir."] := by
  have h := handle_organization_input_out_of_range "/lib" simFs (to_string 2147483648)
    { simGlobals AppState.ORGANIZING with music_dirs := List.replicate 2147483648 "Jazz" }
    (by decide) (by decide) (by decide) (by decide) (by decide)
  refine ⟨by decide, ?_, ?_, ?_⟩
  · show 2147483648 ≤ (List.replicate 2147483648 "Jazz").length
    rw [List.length_replicate]
  · rw [h]; rfl
  · rw [h]; rfl

/-- C2, amended. For every candidate list and every input that is not a sentinel
and that `stoi` does not read as an integer in `1..|c|` (it throws, or the value it
reads from the front of the input is outside the range), `handle_organization_input`
does not call `move_file`, appends one of its three error lines (followed by the
separator and the prompt) to the log, returns, and leaves the state at
`WAITING_FOR_SONG`. -/
theorem organizing_invalid_input (g : Globals σ) (input : String)
    (hs : input ∉ ["q", "Q", "n", "N"])
    (hsel : ∀ v : Int, stoi input = .ok v → v < 1 ∨ (g.music_dirs.length : Int) < v) :
    (handle_organization_input MUSIC_DIR fs input g).move_file_calls = g.move_file_calls ∧
    (∃ e ∈ organizing_errors,
      (handle_organization_input MUSIC_DIR fs input g).output_lines =
        g.output_lines ++ [e, "-----------------------------",
          "Introduce un nuevo nombre de canción o presiona 'q' para salir."]) ∧
    (handle_organization_input MUSIC_DIR fs input g).current_state =
      AppState.WAITING_FOR_SONG := by
  simp only [List.mem_cons, List.mem_singleton, List.not_mem_nil, or_false, not_or] at hs
  obtain ⟨hq, hQ, hn, hN⟩ := hs
  have key : ∃ e ∈ organizing_errors,
      handle_organization_input MUSIC_DIR fs input g = back_to_waiting (add_to_output e g) := by
    rcases hst : stoi input with err | v
    · cases err
      · refine ⟨"Entrada inválida. Por favor, elige un número, 'N', o 'Q'.", by decide, ?_⟩
        unfold handle_organization_input
        simp only [hq, hQ, hn, hN, or_self, if_false, hst]
      · exact ⟨"Opción fuera de rango.", by decide,
          handle_organization_input_out_of_range MUSIC_DIR fs input g hq hQ hn hN hst⟩
    · have hno : ¬ (0 < v ∧ v.toNat ≤ g.music_dirs.length) := by
        rcases hsel v hst with h | h
        · omega
        · omega
      refine ⟨"Opción inválida.", by decide, ?_⟩
      unfold handle_organization_input
      simp only [hq, hQ, hn, hN, or_self, if_false, hst, dif_neg hno]
  obtain ⟨e, he, h⟩ := key
  rw [h]
  refine ⟨rfl, ⟨e, he, ?_⟩, rfl⟩
  simp [back_to_waiting, add_to_output]

/-- C2, witness: with the candidates `["Jazz", "Rock"]` the input `"5"` is refused. -/
theorem organizing_invalid_input_witness :
    (handle_organization_input "/lib" simFs "5"
      (simGlobals AppState.ORGANIZING)).move_file_calls =
        (simGlobals AppState.ORGANIZING).move_file_calls ∧
    (∃ e ∈ organizing_errors,
      (handle_organization_input "/lib" simFs "5" (simGlobals AppState.ORGANIZING)).output_lines =
        (simGlobals AppState.ORGANIZING).output_lines ++ [e, "-----------------------------",
          "Introduce un nuevo nombre de canción o presiona 'q' para salir."]) ∧
    (handle_organization_input "/lib" simFs "5" (simGlobals AppState.ORGANIZING)).current_state =
      AppState.WAITING_FOR_SONG :=
  organizing_invalid_input "/lib" simFs (simGlobals AppState.ORGANIZING) "5" (by decide)
    (by
      intro v hv
      have h5 : stoi "5" = .ok 5 := by decide
      rw [h5] at hv
      cases hv
      right
      decide)

/-- C2 as stated fails: `"2abc"` is not a sentinel and is not the numeral of any
integer in `1..2`, but `stoi` reads the leading `2`, so with the candidates
`["Jazz", "Rock"]` the file is placed into `"Rock"` and no error line is logged. -/
theorem organizing_digit_prefix_places :
    "2abc" ∉ ["q", "Q", "n", "N"] ∧
    (∀ k : Nat, 1 ≤ k → k ≤ (simGlobals AppState.ORGANIZING).music_dirs.length →
      to_string k ≠ "2abc") ∧
    (handle_organization_input "/lib" simFs "2abc"
      (simGlobals AppState.ORGANIZING)).move_file_calls = ["Rock"] ∧
    (handle_organization_input "/lib" simFs "2abc"
      (simGlobals AppState.ORGANIZING)).output_lines =
        ["Archivo movido a: Rock", "-----------------------------",
         "Introduce un nuevo nombre de canción o presiona 'q' para salir."] := by
  refine ⟨by decide, ?_, by decide, by decide⟩
  intro k h1 hk
  have hk2 : k ≤ 2 := hk
  interval_cases k <;> decide

end OrganizingClaims


/-! ## Claims about lines submitted through the loop of `main` -/

section SubmitClaims

variable {σ : Type} (MUSIC_DIR : String) (fs : Filesystem σ)

/-- What Enter does with `"q"` or `"Q"` in the buffer in any state but
`WAITING_FOR_SONG`: the state is reset, the buffer cleared and the cancellation logged;
no handler runs. -/
theorem submit_quit (g : Globals σ) (line : String) (hline : line = "q" ∨ line = "Q")
    (hst : g.current_state ≠ AppState.WAITING_FOR_SONG) :
    (submit MUSIC_DIR fs line g).g =
      add_to_output "Operación cancelada. Introduce un nombre de canción."
        { g with current_state := AppState.WAITING_FOR_SONG } := by
  simp [submit, main_key, ERR, hline, hst]

/-- C3, amended. A line submitted with Enter while the state is `CREATING_FOLDER`:
if it is non-empty and is not `"q"` or `"Q"`, `move_file` is called once with exactly
that string and the state becomes `WAITING_FOR_SONG`; if it is `"q"` or `"Q"`, the
submission is a cancellation: "Operación cancelada. Introduce un nombre de canción." is
logged, `move_file` is not called and the state becomes `WAITING_FOR_SONG`; if it is
empty, nothing is dispatched: the log and the state (`CREATING_FOLDER`) are unchanged
and `move_file` is not called. -/
theorem creating_folder_submit (g : Globals σ) (line : String)
    (hst : g.current_state = AppState.CREATING_FOLDER) :
    (line ≠ "" → line ≠ "q" → line ≠ "Q" →
      (submit MUSIC_DIR fs line g).g.move_file_calls = g.move_file_calls ++ [line] ∧
      (submit MUSIC_DIR fs line g).g.current_state = AppState.WAITING_FOR_SONG) ∧
    (line = "q" ∨ line = "Q" →
      (submit MUSIC_DIR fs line g).g.move_file_calls = g.move_file_calls ∧
      (submit MUSIC_DIR fs line g).g.output_lines =
        g.output_lines ++ ["Operación cancelada. Introduce un nombre de canción."] ∧
      (submit MUSIC_DIR fs line g).g.current_state = AppState.WAITING_FOR_SONG) ∧
    (line = "" → (submit MUSIC_DIR fs line g).g = g) := by
  refine ⟨?_, ?_, ?_⟩
  · intro hne hq hQ
    have h : (submit MUSIC_DIR fs line g).g =
        back_to_waiting (move_file MUSIC_DIR fs line g) := by
      simp [submit, main_key, ERR, hne, hq, hQ, hst, handle_create_folder_input]
    rw [h, back_to_waiting_calls, move_file_calls_eq, back_to_waiting_state]
    exact ⟨rfl, rfl⟩
  · intro hline
    rw [submit_quit MUSIC_DIR fs g line hline (by rw [hst]; decide)]
    exact ⟨rfl, rfl, rfl⟩
  · intro hline
    subst hline
    simp [submit, main_key, ERR]

/-- C3, witness: `"Soundtracks"` submitted in `CREATING_FOLDER` is placed into
`"Soundtracks"` and the state becomes `WAITING_FOR_SONG`. -/
theorem creating_folder_submit_witness :
    (submit "/lib" simFs "Soundtracks" (simGlobals AppState.CREATING_FOLDER)).g.move_file_calls =
      (simGlobals AppState.CREATING_FOLDER).move_file_calls ++ ["Soundtracks"] ∧
    (submit "/lib" simFs "Soundtracks" (simGlobals AppState.CREATING_FOLDER)).g.current_state =
      AppState.WAITING_FOR_SONG :=
  (creating_folder_submit "/lib" simFs (simGlobals AppState.CREATING_FOLDER) "Soundtracks"
    rfl).1 (by decide) (by decide) (by decide)

/-- C3 as stated fails twice. The non-empty line `"q"` submitted in `CREATING_FOLDER`
does not reach `move_file`; and the empty line logs nothing and leaves the state at
`CREATING_FOLDER`. -/
theorem creating_folder_submit_fails :
    ("q" ≠ "" ∧
      (submit "/lib" simFs "q" (simGlobals AppState.CREATING_FOLDER)).g.move_file_calls = []) ∧
    ((submit "/lib" simFs "" (simGlobals AppState.CREATING_FOLDER)).g.output_lines = [] ∧
      (submit "/lib" simFs "" (simGlobals AppState.CREATING_FOLDER)).g.current_state =
        AppState.CREATING_FOLDER) := by
  decide

/-- C4, amended. When `"q"` or `"Q"` is submitted with Enter while the state is
`ORGANIZING`, the loop of `main` treats it as a cancellation before any handler runs:
the log receives "Operación cancelada. Introduce un nombre de canción." (and nothing
else), `move_file` is not called, and the state becomes `WAITING_FOR_SONG`. -/
theorem organizing_submit_quit (g : Globals σ) (line : String)
    (hline : line = "q" ∨ line = "Q") (hst : g.current_state = AppState.ORGANIZING) :
    (submit MUSIC_DIR fs line g).g.output_lines =
      g.output_lines ++ ["Operación cancelada. Introduce un nombre de canción."] ∧
    (submit MUSIC_DIR fs line g).g.move_file_calls = g.move_file_calls ∧
    (submit MUSIC_DIR fs line g).g.current_state = AppState.WAITING_FOR_SONG := by
  rw [submit_quit MUSIC_DIR fs g line hline (by rw [hst]; decide)]
  exact ⟨rfl, rfl, rfl⟩

/-- C4, witness: `"Q"` submitted in `ORGANIZING` over the sample library. -/
theorem organizing_submit_quit_witness :
    (submit "/lib" simFs "Q" (simGlobals AppState.ORGANIZING)).g.output_lines =
      (simGlobals AppState.ORGANIZING).output_lines ++
        ["Operación cancelada. Introduce un nombre de canción."] ∧
    (submit "/lib" simFs "Q" (simGlobals AppState.ORGANIZING)).g.move_file_calls =
      (simGlobals AppState.ORGANIZING).move_file_calls ∧
    (submit "/lib" simFs "Q" (simGlobals AppState.ORGANIZING)).g.current_state =
      AppState.WAITING_FOR_SONG :=
  organizing_submit_quit "/lib" simFs (simGlobals AppState.ORGANIZING) "Q" (Or.inr rfl) rfl

/-- C4 as stated fails: after `"q"` is submitted in `ORGANIZING` the log does not hold
the line "Archivo conservado en /lib."; that line is only produced by
`handle_organization_input`, which a direct call shows. -/
theorem organizing_submit_quit_not_kept :
    "Archivo conservado en /lib." ∉
      (submit "/lib" simFs "q" (simGlobals AppState.ORGANIZING)).g.output_lines ∧
    "Archivo conservado en /lib." ∈
      (handle_organization_input "/lib" simFs "q" (simGlobals AppState.ORGANIZING)).output_lines := by
  decide

end SubmitClaims


/-! ## The artifact locator -/

section Locator

variable {σ : Type}

theorem find_from_cons (needle : List Char) (c : Char) (cs : List Char) (i : Nat) :
    find_from needle (c :: cs) i =
      if needle.isPrefixOf (c :: cs) then some i else find_from needle cs (i + 1) := rfl

theorem occurrences_cons (needle : List Char) (c : Char) (cs : List Char) :
    occurrences needle (c :: cs) =
      (if needle.isPrefixOf (c :: cs) then 1 else 0) + occurrences needle cs := rfl

theorem find_from_none (needle : List Char) : ∀ (l : List Char) (i : Nat),
    ¬ needle <:+: l → find_from needle l i = none := by
  intro l
  induction l with
  | nil =>
    intro i h
    have : needle ≠ [] := fun hn => h (by simp [hn])
    simp [find_from, this]
  | cons c cs ih =>
    intro i h
    rw [List.infix_cons_iff, not_or] at h
    have hp : needle.isPrefixOf (c :: cs) = false := by
      rw [Bool.eq_false_iff]
      intro hp
      exact h.1 (List.isPrefixOf_iff_prefix.mp hp)
    rw [find_from_cons, hp, ih (i + 1) h.2]
    simp

theorem occurrences_pos (needle : List Char) : ∀ (pre suf : List Char),
    1 ≤ occurrences needle (pre ++ (needle ++ suf)) := by
  intro pre
  induction pre with
  | nil =>
    intro suf
    cases hl : needle ++ suf with
    | nil =>
      obtain ⟨h1, _⟩ := List.append_eq_nil.mp hl
      subst h1
      simp [occurrences]
    | cons c cs =>
      have hp : needle.isPrefixOf (c :: cs) = true := by
        rw [List.isPrefixOf_iff_prefix, ← hl]
        exact List.prefix_append _ _
      rw [List.nil_append, occurrences_cons, hp]
      simp
  | cons p ps ih =>
    intro suf
    have := ih suf
    rw [List.cons_append, occurrences_cons]
    omega

/-- With the marker occurring once, `find` returns the position of that occurrence. -/
theorem find_from_unique (needle : List Char) : ∀ (pre suf : List Char) (i : Nat),
    occurrences needle (pre ++ (needle ++ suf)) ≤ 1 →
    find_from needle (pre ++ (needle ++ suf)) i = some (i + pre.length) := by
  intro pre
  induction pre with
  | nil =>
    intro suf i _
    cases hl : needle ++ suf with
    | nil =>
      obtain ⟨h1, _⟩ := List.append_eq_nil.mp hl
      subst h1
      simp [find_from]
    | cons c cs =>
      have hp : needle.isPrefixOf (c :: cs) = true := by
        rw [List.isPrefixOf_iff_prefix, ← hl]
        exact List.prefix_append _ _
      rw [List.nil_append, find_from_cons, hp]
      simp
  | cons p ps ih =>
    intro suf i h
    have hpos := occurrences_pos needle ps suf
    rw [List.cons_append, occurrences_cons] at h
    have hp : needle.isPrefixOf (p :: (ps ++ (needle ++ suf))) = false := by
      rw [Bool.eq_false_iff]
      intro hp
      rw [if_pos hp] at h
      omega
    have hrest : occurrences needle (ps ++ (needle ++ suf)) ≤ 1 := by omega
    rw [List.cons_append, find_from_cons, hp, ih suf (i + 1) hrest, List.length_cons]
    simp
    omega

theorem occurrences_dropLast (needle : List Char) : ∀ l : List Char,
    occurrences needle l.dropLast ≤ occurrences needle l := by
  intro l
  induction l with
  | nil => simp
  | cons c cs ih =>
    cases cs with
    | nil =>
      rw [List.dropLast_single, occurrences_cons]
      omega
    | cons c' cs' =>
      have hstep : (if needle.isPrefixOf (c :: (c' :: cs').dropLast) then 1 else 0) ≤
          (if needle.isPrefixOf (c :: c' :: cs') then 1 else 0) := by
        by_cases hp : needle.isPrefixOf (c :: (c' :: cs').dropLast) = true
        · have hp' : needle.isPrefixOf (c :: c' :: cs') = true := by
            rw [List.isPrefixOf_iff_prefix] at hp ⊢
            exact hp.trans (List.dropLast_prefix (c :: c' :: cs'))
          simp [hp, hp']
        · simp [hp]
      have hd : (c :: c' :: cs').dropLast = c :: (c' :: cs').dropLast := rfl
      rw [hd, occurrences_cons, occurrences_cons needle c (c' :: cs')]
      omega

end Locator


section LocatorClaims

variable {σ : Type}

/-- The line after `if (!line.empty() && line.back() == '\n') line.pop_back();`. -/
theorem process_line_strip (line : String) :
    (if line.data ≠ [] ∧ line.data.getLast? = some '\n' then String.mk line.data.dropLast
      else line).data = strip_newline line.data := by
  unfold strip_newline
  by_cases h : line.data.getLast? = some '\n'
  · have hne : line.data ≠ [] := by
      intro hnil
      rw [hnil] at h
      simp at h
    simp [h, hne]
  · simp [h]

theorem strip_newline_within (l : List Char) : strip_newline l <:+: l := by
  unfold strip_newline
  split
  · exact (List.dropLast_prefix l).isInfix
  · exact List.infix_refl l

theorem strip_newline_marker (pre suf : List Char) :
    strip_newline (pre ++ (dest_marker.data ++ suf)) =
      pre ++ (dest_marker.data ++ strip_newline suf) := by
  rcases List.eq_nil_or_concat suf with hs | ⟨s, c, hs⟩
  · subst hs
    have hm : dest_marker.data = "[ExtractAudio] Destination:".data ++ [' '] := by decide
    have h1 : (pre ++ (dest_marker.data ++ [])).getLast? = some ' ' := by
      rw [hm, List.append_nil, ← List.append_assoc, List.getLast?_concat]
    unfold strip_newline
    rw [h1]
    simp
  · rw [List.concat_eq_append] at hs
    subst hs
    have e : pre ++ (dest_marker.data ++ (s ++ [c])) = (pre ++ (dest_marker.data ++ s)) ++ [c] := by
      simp [List.append_assoc]
    unfold strip_newline
    rw [e, List.getLast?_concat, List.getLast?_concat, List.dropLast_concat, List.dropLast_concat]
    by_cases hc : c = '\n'
    · simp [hc]
    · have : ¬ (some c = some '\n') := by simpa using hc
      simp [this, List.append_assoc]

/-- A line without the marker leaves the artifact as it was. -/
theorem process_line_no_marker (line : String) (g : Globals σ)
    (h : ¬ dest_marker.data <:+: line.data) :
    (process_line line g).last_downloaded_file = g.last_downloaded_file := by
  have hno : ¬ dest_marker.data <:+: strip_newline line.data :=
    fun hin => h (hin.trans (strip_newline_within line.data))
  unfold process_line
  simp only [find, process_line_strip]
  rw [find_from_none _ _ 0 hno]
  rfl

/-- A line with the marker once sets the artifact to what follows the marker, one
trailing newline removed. -/
theorem process_line_marker (line : String) (g : Globals σ) (pre suf : List Char)
    (hline : line.data = pre ++ dest_marker.data ++ suf)
    (honce : occurrences dest_marker.data line.data ≤ 1) :
    (process_line line g).last_downloaded_file = String.mk (strip_newline suf) := by
  have hline' : line.data = pre ++ (dest_marker.data ++ suf) := by
    rw [hline, List.append_assoc]
  have hstrip : strip_newline line.data = pre ++ (dest_marker.data ++ strip_newline suf) := by
    rw [hline', strip_newline_marker]
  have hocc : occurrences dest_marker.data (pre ++ (dest_marker.data ++ strip_newline suf)) ≤ 1 := by
    rw [← hstrip]
    unfold strip_newline
    split
    · exact le_trans (occurrences_dropLast _ _) honce
    · exact honce
  unfold process_line
  simp only [find, process_line_strip, hstrip]
  rw [find_from_unique _ _ _ 0 hocc]
  simp only [substr, process_line_strip, hstrip, String.length]
  congr 1
  rw [← List.append_assoc]
  exact List.drop_left' (by simp)

theorem feed_lines_no_marker (lines : List String) : ∀ (g : Globals σ),
    (∀ l ∈ lines, ¬ dest_marker.data <:+: l.data) →
    (feed_lines lines g).last_downloaded_file = g.last_downloaded_file := by
  induction lines with
  | nil => intro g _; rfl
  | cons l ls ih =>
    intro g h
    have h1 := ih (process_line l g) (fun l' hl' => h l' (List.mem_cons_of_mem _ hl'))
    have h2 := process_line_no_marker l g (h l (List.mem_cons_self _ _))
    simpa [feed_lines, h2] using h1

/-- C5. The lines of the read loop are fed to the artifact-locating step, starting
from an empty artifact, each line holding the marker "[ExtractAudio] Destination: "
at most once. If no line contains the marker the artifact stays empty. Otherwise,
whenever `line` is the last line containing the marker and `suf` is the text that
follows the marker in it, the artifact is `suf` with its trailing newline removed. -/
theorem artifact_locator (g : Globals σ) (lines : List String)
    (hempty : g.last_downloaded_file = "")
    (honce : ∀ l ∈ lines, occurrences dest_marker.data l.data ≤ 1) :
    ((∀ l ∈ lines, ¬ dest_marker.data <:+: l.data) →
      (feed_lines lines g).last_downloaded_file = "") ∧
    (∀ (before after : List String) (line : String) (pre suf : List Char),
      lines = before ++ line :: after →
      line.data = pre ++ dest_marker.data ++ suf →
      (∀ l ∈ after, ¬ dest_marker.data <:+: l.data) →
      (feed_lines lines g).last_downloaded_file = String.mk (strip_newline suf)) := by
  constructor
  · intro hno
    rw [feed_lines_no_marker lines g hno, hempty]
  · intro before after line pre suf hl hline hafter
    subst hl
    have hsplit : feed_lines (before ++ line :: after) g =
        feed_lines after (process_line line (feed_lines before g)) := by
      simp [feed_lines, List.foldl_append]
    rw [hsplit, feed_lines_no_marker after _ hafter]
    exact process_line_marker line _ pre suf hline (honce line (by simp))

/-- C5, witness: the line "[ExtractAudio] Destination: /lib/test song.mp3" alone gives
the artifact "/lib/test song.mp3", and of two marker lines the second one wins. -/
theorem artifact_locator_witness :
    (feed_lines
        ["[download] 100% of 3.20MiB\n",
         "[ExtractAudio] Destination: /lib/test song.mp3\n",
         "Deleting original file /lib/test song.webm\n"]
        (run_download_begin (simGlobals AppState.WAITING_FOR_SONG))).last_downloaded_file =
      String.mk (strip_newline "/lib/test song.mp3\n".data) ∧
    (feed_lines
        ["[ExtractAudio] Destination: /lib/first.mp3\n",
         "[ExtractAudio] Destination: /lib/second.mp3\n"]
        (run_download_begin (simGlobals AppState.WAITING_FOR_SONG))).last_downloaded_file =
      String.mk (strip_newline "/lib/second.mp3\n".data) :=
  ⟨(artifact_locator (run_download_begin (simGlobals AppState.WAITING_FOR_SONG))
      ["[download] 100% of 3.20MiB\n",
       "[ExtractAudio] Destination: /lib/test song.mp3\n",
       "Deleting original file /lib/test song.webm\n"] rfl (by decide)).2
      ["[download] 100% of 3.20MiB\n"] ["Deleting original file /lib/test song.webm\n"]
      "[ExtractAudio] Destination: /lib/test song.mp3\n" [] "/lib/test song.mp3\n".data
      rfl (by decide) (by decide),
   (artifact_locator (run_download_begin (simGlobals AppState.WAITING_FOR_SONG))
      ["[ExtractAudio] Destination: /lib/first.mp3\n",
       "[ExtractAudio] Destination: /lib/second.mp3\n"] rfl (by decide)).2
      ["[ExtractAudio] Destination: /lib/first.mp3\n"] []
      "[ExtractAudio] Destination: /lib/second.mp3\n" [] "/lib/second.mp3\n".data
      rfl (by decide) (by decide)⟩

end LocatorClaims


/-! ## The read loop -/

section ReadLoop

variable {σ : Type}

theorem process_line_lines (line : String) (g : Globals σ) :
    (process_line line g).output_lines =
      g.output_lines ++ [String.mk (strip_newline line.data)] := by
  have h := process_line_strip line
  unfold process_line
  simp only []
  split <;> simp [add_to_output, ← h]

/-- What the body of the read loop leaves untouched. -/
theorem process_line_frame (line : String) (g : Globals σ) :
    (process_line line g).current_state = g.current_state ∧
    (process_line line g).music_dirs = g.music_dirs ∧
    (process_line line g).world = g.world ∧
    (process_line line g).move_file_calls = g.move_file_calls := by
  unfold process_line
  simp only []
  split <;> exact ⟨rfl, rfl, rfl, rfl⟩

theorem fgets_read_rest_length : ∀ (k : Nat) (s : List Char),
    (fgets_read k s).2.length ≤ s.length := by
  intro k
  induction k with
  | zero => intro s; simp [fgets_read]
  | succ k ih =>
    intro s
    cases s with
    | nil => simp [fgets_read]
    | cons c cs =>
      have := ih cs
      unfold fgets_read
      split
      · simp
      · simp only [List.length_cons]
        omega

/-- A successful `fgets` consumes at least one character. -/
theorem fgets_progress (stream buffer rest : List Char)
    (h : fgets 512 stream = some (buffer, rest)) : rest.length < stream.length := by
  cases stream with
  | nil => simp [fgets] at h
  | cons c cs =>
    simp only [fgets, Option.some.injEq] at h
    have h2 : (fgets_read 511 (c :: cs)).2 = rest := by rw [h]
    have := fgets_read_rest_length 510 cs
    rw [← h2]
    show (fgets_read (510 + 1) (c :: cs)).2.length < (c :: cs).length
    unfold fgets_read
    split
    · simp
    · simp only [List.length_cons]
      omega

/-- The read loop returns: the process output is finite and every `fgets` consumes
input, so `length + 1` iterations are enough. -/
theorem read_loop_returns : ∀ (fuel : Nat) (stream : List Char) (g : Globals σ),
    stream.length < fuel → ∃ g', read_loop fuel stream g = some g' := by
  intro fuel
  induction fuel with
  | zero => intro stream g h; omega
  | succ fuel ih =>
    intro stream g h
    unfold read_loop
    split
    · exact ⟨g, rfl⟩
    · rename_i buffer rest heq
      have := fgets_progress stream buffer rest heq
      exact ih rest _ (by omega)

/-- The read loop only appends to the log and only sets the artifact. -/
theorem read_loop_frame : ∀ (fuel : Nat) (stream : List Char) (g g' : Globals σ),
    read_loop fuel stream g = some g' →
    g'.current_state = g.current_state ∧ g'.music_dirs = g.music_dirs ∧
    g'.world = g.world ∧ g'.move_file_calls = g.move_file_calls ∧
    g.output_lines <+: g'.output_lines := by
  intro fuel
  induction fuel with
  | zero => intro stream g g' h; simp [read_loop] at h
  | succ fuel ih =>
    intro stream g g' h
    unfold read_loop at h
    split at h
    · simp only [Option.some.injEq] at h
      subst h
      exact ⟨rfl, rfl, rfl, rfl, List.prefix_refl _⟩
    · rename_i buffer rest heq
      obtain ⟨h1, h2, h3, h4, h5⟩ := ih rest _ g' h
      obtain ⟨f1, f2, f3, f4⟩ := process_line_frame (c_string buffer) g
      refine ⟨h1.trans f1, h2.trans f2, h3.trans f3, h4.trans f4, ?_⟩
      rw [process_line_lines] at h5
      exact (List.prefix_append _ _).trans h5

end ReadLoop


section ReadLoopClaims

variable {σ : Type}

theorem fgets_read_line : ∀ (l : List Char) (k : Nat) (rest : List Char),
    '\n' ∉ l → l.length < k → fgets_read k (l ++ '\n' :: rest) = (l ++ ['\n'], rest) := by
  intro l
  induction l with
  | nil =>
    intro k rest _ hk
    obtain ⟨k, rfl⟩ : ∃ j, k = j + 1 := ⟨k - 1, by simp at hk; omega⟩
    simp [fgets_read]
  | cons c cs ih =>
    intro k rest hn hk
    obtain ⟨k, rfl⟩ : ∃ j, k = j + 1 := ⟨k - 1, by simp at hk; omega⟩
    have hc : c ≠ '\n' := fun h => hn (by simp [h])
    have hcs : '\n' ∉ cs := fun h => hn (List.mem_cons_of_mem _ h)
    have hlen : cs.length < k := by simp at hk; omega
    rw [List.cons_append, fgets_read, if_neg hc, ih k rest hcs hlen]
    rfl

theorem fgets_read_last : ∀ (l : List Char) (k : Nat),
    '\n' ∉ l → l.length ≤ k → fgets_read k l = (l, []) := by
  intro l
  induction l with
  | nil => intro k _ _; cases k <;> rfl
  | cons c cs ih =>
    intro k hn hk
    obtain ⟨k, rfl⟩ : ∃ j, k = j + 1 := ⟨k - 1, by simp at hk; omega⟩
    have hc : c ≠ '\n' := fun h => hn (by simp [h])
    have hcs : '\n' ∉ cs := fun h => hn (List.mem_cons_of_mem _ h)
    have hlen : cs.length ≤ k := by simp at hk; omega
    rw [fgets_read, if_neg hc, ih k hcs hlen]

theorem text_lines_line : ∀ (l rest : List Char),
    '\n' ∉ l → text_lines (l ++ '\n' :: rest) = l :: text_lines rest := by
  intro l
  induction l with
  | nil => intro rest _; simp [text_lines]
  | cons c cs ih =>
    intro rest hn
    have hc : c ≠ '\n' := fun h => hn (by simp [h])
    have hcs : '\n' ∉ cs := fun h => hn (List.mem_cons_of_mem _ h)
    rw [List.cons_append, text_lines, if_neg hc, ih rest hcs]

theorem text_lines_last : ∀ (l : List Char), '\n' ∉ l → l ≠ [] → text_lines l = [l] := by
  intro l
  induction l with
  | nil => intro _ h; exact absurd rfl h
  | cons c cs ih =>
    intro hn _
    have hc : c ≠ '\n' := fun h => hn (by simp [h])
    have hcs : '\n' ∉ cs := fun h => hn (List.mem_cons_of_mem _ h)
    rw [text_lines, if_neg hc]
    cases cs with
    | nil => rfl
    | cons d ds => rw [ih hcs (by simp)]

/-- A stream is a last line without newline, or a first line, a newline and a rest. -/
theorem split_first_line : ∀ (s : List Char),
    ('\n' ∉ s) ∨ ∃ l rest, '\n' ∉ l ∧ s = l ++ '\n' :: rest := by
  intro s
  induction s with
  | nil => left; simp
  | cons c cs ih =>
    by_cases hc : c = '\n'
    · right
      exact ⟨[], cs, by simp, by simp [hc]⟩
    · rcases ih with h | ⟨l, rest, hl, hs⟩
      · left
        intro hmem
        rcases List.mem_cons.mp hmem with h1 | h1
        · exact hc h1.symm
        · exact h h1
      · right
        refine ⟨c :: l, rest, ?_, by simp [hs]⟩
        intro hmem
        rcases List.mem_cons.mp hmem with h1 | h1
        · exact hc h1.symm
        · exact hl h1

theorem c_string_no_nul (buffer : List Char) (h : '\x00' ∉ buffer) :
    c_string buffer = String.mk buffer := by
  unfold c_string
  congr 1
  rw [List.takeWhile_eq_self_iff]
  intro c hc
  have : c ≠ '\x00' := fun e => h (e ▸ hc)
  simpa using this

theorem strip_newline_concat (l : List Char) : strip_newline (l ++ ['\n']) = l := by
  simp [strip_newline]

theorem strip_newline_none (l : List Char) (h : '\n' ∉ l) : strip_newline l = l := by
  unfold strip_newline
  split
  · rename_i hl
    obtain ⟨ys, hys⟩ := List.getLast?_eq_some_iff.mp hl
    exact absurd (by rw [hys]; simp) h
  · rfl

/-- The read loop on an output without NUL whose lines are at most 510 characters
long: it returns, and it has appended exactly the lines of the output. -/
theorem read_loop_lines : ∀ (fuel : Nat) (stream : List Char) (g : Globals σ),
    stream.length < fuel → '\x00' ∉ stream →
    (∀ l ∈ text_lines stream, l.length ≤ 510) →
    ∃ g', read_loop fuel stream g = some g' ∧
      g'.output_lines = g.output_lines ++ (text_lines stream).map String.mk := by
  intro fuel
  induction fuel with
  | zero => intro stream g h; omega
  | succ fuel ih =>
    intro stream g hfuel hnul hshort
    cases hs : stream with
    | nil => exact ⟨g, by simp [read_loop, fgets], by simp [text_lines]⟩
    | cons c cs =>
      rcases split_first_line stream with hlast | ⟨l, rest, hl, hsplit⟩
      · have hne : stream ≠ [] := by rw [hs]; simp
        have htl := text_lines_last stream hlast hne
        have hlen : stream.length ≤ 511 := by
          have := hshort stream (by rw [htl]; simp)
          omega
        have hf : fgets 512 (c :: cs) = some (c :: cs, []) := by
          rw [← hs]
          simp only [fgets, hs]
          rw [← hs, fgets_read_last stream 511 hlast hlen]
        have hfuel1 : 0 < fuel := by rw [hs] at hfuel; simp at hfuel; omega
        obtain ⟨fuel, rfl⟩ : ∃ j, fuel = j + 1 := ⟨fuel - 1, by omega⟩
        refine ⟨process_line (c_string (c :: cs)) g, ?_, ?_⟩
        · rw [read_loop, hf]
          simp [read_loop, fgets]
        · rw [process_line_lines, c_string_no_nul _ (hs ▸ hnul), ← hs, htl]
          simp [strip_newline_none stream hlast]
      · have htl := text_lines_line l rest hl
        have hlen : l.length < 511 := by
          have := hshort l (by rw [hsplit, htl]; simp)
          omega
        have hf : fgets 512 (c :: cs) = some (l ++ ['\n'], rest) := by
          simp only [fgets]
          rw [← hs, hsplit, fgets_read_line l 511 rest hl hlen]
        have hrest_len : rest.length < fuel := by
          rw [hsplit] at hfuel
          simp at hfuel
          omega
        have hrest_nul : '\x00' ∉ rest := by
          intro h
          exact hnul (by rw [hsplit]; simp [h])
        have hbuf_nul : '\x00' ∉ l ++ ['\n'] := by
          intro h
          rcases List.mem_append.mp h with h1 | h1
          · exact hnul (by rw [hsplit]; simp [h1])
          · simp at h1
        have hrest_short : ∀ l' ∈ text_lines rest, l'.length ≤ 510 := by
          intro l' hl'
          exact hshort l' (by rw [hsplit, htl]; simp [hl'])
        obtain ⟨g', hg', hlines⟩ := ih rest (process_line (c_string (l ++ ['\n'])) g)
          hrest_len hrest_nul hrest_short
        refine ⟨g', ?_, ?_⟩
        · rw [read_loop, hf]
          exact hg'
        · rw [hlines, process_line_lines, c_string_no_nul _ hbuf_nul, ← hs, hsplit, htl]
          simp [strip_newline_concat]

/-- C10, amended. For every output text of the process without NUL bytes whose lines
are at most 510 characters long, the read loop of `run_download` returns and the
entries it has appended to the log are exactly the newline-delimited lines of the
text, one entry per line, in order, each without its newline. (`fgets` stores at most
511 characters at a time, so a longer line is cut into several entries.) -/
theorem read_loop_transcript (output : String) (g : Globals σ)
    (hnul : '\x00' ∉ output.data)
    (hshort : ∀ l ∈ text_lines output.data, l.length ≤ 510) :
    ∃ g', read_loop (output.data.length + 1) output.data g = some g' ∧
      g'.output_lines = g.output_lines ++ (text_lines output.data).map String.mk :=
  read_loop_lines (output.data.length + 1) output.data g (by omega) hnul hshort

/-- C10, witness: a three-line output, the last line without newline. -/
theorem read_loop_transcript_witness :
    ∃ g', read_loop ("[youtube] Extracting URL\n\n[download] 100%".data.length + 1)
        "[youtube] Extracting URL\n\n[download] 100%".data
        (simGlobals AppState.DOWNLOADING) = some g' ∧
      g'.output_lines = (simGlobals AppState.DOWNLOADING).output_lines ++
        (text_lines "[youtube] Extracting URL\n\n[download] 100%".data).map String.mk :=
  read_loop_transcript "[youtube] Extracting URL\n\n[download] 100%"
    (simGlobals AppState.DOWNLOADING) (by decide) (by decide)

end ReadLoopClaims


set_option maxRecDepth 20000 in
/-- C10 as stated fails: an output that is one line of 512 characters is logged as two
entries, the first 511 characters and then the last one. -/
theorem read_loop_splits_long_line :
    '\x00' ∉ List.replicate 512 'a' ∧
    text_lines (List.replicate 512 'a') = [List.replicate 512 'a'] ∧
    (read_loop ((List.replicate 512 'a').length + 1) (List.replicate 512 'a')
        (simGlobals AppState.DOWNLOADING)).map (fun g => g.output_lines) =
      some [String.mk (List.replicate 511 'a'), "a"] := by
  decide


/-! ## The organization menu -/

section Menu

variable {σ : Type} (MUSIC_DIR : String) (fs : Filesystem σ)

theorem string_less_asymm : ∀ (a b : List Char),
    string_less a b = true → string_less b a = false := by
  intro a
  induction a with
  | nil => intro b _; cases b <;> rfl
  | cons x xs ih =>
    intro b h
    cases b with
    | nil => simp [string_less] at h
    | cons y ys =>
      simp only [string_less] at h ⊢
      by_cases h1 : x.toNat < y.toNat
      · have h2 : ¬ y.toNat < x.toNat := by omega
        simp [h1, h2]
      · by_cases h2 : y.toNat < x.toNat
        · simp [h1, h2] at h
        · simp only [h1, h2, if_false] at h ⊢
          exact ih ys h

theorem string_less_cotrans : ∀ (a b c : List Char),
    string_less c a = true → string_less b a = true ∨ string_less c b = true := by
  intro a
  induction a with
  | nil => intro b c h; cases c <;> simp [string_less] at h
  | cons x xs ih =>
    intro b c h
    cases b with
    | nil =>
      cases c with
      | nil => left; rfl
      | cons z zs => left; rfl
    | cons y ys =>
      cases c with
      | nil => right; rfl
      | cons z zs =>
        simp only [string_less] at h ⊢
        by_cases hzx : z.toNat < x.toNat
        · by_cases hyx : y.toNat < x.toNat
          · left; simp [hyx]
          · right
            have : z.toNat < y.toNat := by omega
            simp [this]
        · by_cases hxz : x.toNat < z.toNat
          · simp [hzx, hxz] at h
          · simp only [hzx, hxz, if_false] at h
            by_cases hyx : y.toNat < x.toNat
            · left; simp [hyx]
            · by_cases hxy : x.toNat < y.toNat
              · right
                have : z.toNat < y.toNat := by omega
                simp [this]
              · have e1 : ¬ z.toNat < y.toNat := by omega
                have e2 : ¬ y.toNat < z.toNat := by omega
                simp only [hyx, hxy, e1, e2, if_false]
                exact ih ys zs h

theorem string_le_total (a b : String) : string_le a b ∨ string_le b a := by
  unfold string_le
  cases h : string_less b.data a.data with
  | false => left; rfl
  | true => right; exact string_less_asymm _ _ h

theorem string_le_trans (a b c : String) (hab : string_le a b) (hbc : string_le b c) :
    string_le a c := by
  unfold string_le at hab hbc ⊢
  cases h : string_less c.data a.data with
  | false => rfl
  | true =>
    rcases string_less_cotrans a.data b.data c.data h with h1 | h1
    · rw [h1] at hab; exact absurd hab (by decide)
    · rw [h1] at hbc; exact absurd hbc (by decide)

/-- The result of `std::sort` is in ascending order and holds the same strings. -/
theorem sort_sorted_perm (v : List String) :
    (sort v).Sorted string_le ∧ (sort v).Perm v := by
  haveI : IsTotal String string_le := ⟨string_le_total⟩
  haveI : IsTrans String string_le := ⟨string_le_trans⟩
  exact ⟨List.sorted_insertionSort string_le v, List.perm_insertionSort string_le v⟩

theorem collect_dirs_eq (entries : List DirEntry) : ∀ (dirs : List String),
    collect_dirs entries dirs =
      dirs ++ (entries.filter (fun e => e.is_directory)).map (fun e => path_filename e.path) := by
  induction entries with
  | nil => intro dirs; simp [collect_dirs]
  | cons e es ih =>
    intro dirs
    have hstep : collect_dirs (e :: es) dirs =
        collect_dirs es (if e.is_directory then dirs ++ [path_filename e.path] else dirs) := rfl
    rw [hstep, ih]
    cases hd : e.is_directory <;> simp [hd]

theorem menu_numbered_eq : ∀ (dirs : List String) (i : Nat),
    menu_numbered i dirs =
      (dirs.enumFrom (i + 1)).map (fun p => to_string p.1 ++ ". " ++ p.2) := by
  intro dirs
  induction dirs with
  | nil => intro i; rfl
  | cons d ds ih => intro i; simp [menu_numbered, ih]

theorem menu_numbered_get : ∀ (dirs : List String) (i j : Nat),
    (menu_numbered i dirs).get? j =
      (dirs.get? j).map (fun d => to_string (i + j + 1) ++ ". " ++ d) := by
  intro dirs
  induction dirs with
  | nil => intro i j; simp [menu_numbered]
  | cons d ds ih =>
    intro i j
    cases j with
    | zero => simp [menu_numbered]
    | succ j =>
      simp only [menu_numbered, List.get?_cons_succ, ih]
      have : i + 1 + j + 1 = i + (j + 1) + 1 := by omega
      rw [this]

end Menu


section MenuClaims

variable {σ : Type} (MUSIC_DIR : String) (fs : Filesystem σ)

/-- C9. Whatever the entries of the library root, when the directory listing
succeeds `show_organization_menu` returns with: the candidate list holding exactly the
file names of the entries that are directories (a permutation of them: none lost,
none added, none duplicated), in ascending order of `operator<`; and the log being
exactly the header, the file-name line, the question, one line `k. ` followed by
candidate `k` for `k = 1..n`, the separator, the `N` line, the `Q` line and the
prompt. In particular the line at position `k + 2` shows `k` next to the candidate
that index `k` selects. -/
theorem menu_lists_sorted_subdirectories (relock : Relock) (g : Globals σ)
    (entries : List DirEntry)
    (hlist : fs.fs_directory_iterator g.world MUSIC_DIR = (entries, none)) :
    ∃ g', show_organization_menu MUSIC_DIR fs relock g = some g' ∧
      g'.music_dirs.Perm
        ((entries.filter (fun e => e.is_directory)).map (fun e => path_filename e.path)) ∧
      g'.music_dirs.Sorted string_le ∧
      g'.output_lines =
        ["--- Descarga Finalizada ---",
         "Archivo: " ++ path_filename g.last_downloaded_file,
         "¿Dónde deseas mover el archivo?"] ++
        (g'.music_dirs.enumFrom 1).map (fun p => to_string p.1 ++ ". " ++ p.2) ++
        ["-----------------------------",
         "N. Crear nueva carpeta",
         "Q. Dejar en " ++ MUSIC_DIR,
         "Introduce una opción y presiona Enter:"] ∧
      (∀ k, 1 ≤ k → k ≤ g'.music_dirs.length →
        g'.output_lines.get? (k + 2) =
          (g'.music_dirs.get? (k - 1)).map (fun d => to_string k ++ ". " ++ d)) := by
  have hsp := sort_sorted_perm
    ((entries.filter (fun e => e.is_directory)).map (fun e => path_filename e.path))
  refine ⟨{ g with
      music_dirs := sort
        ((entries.filter (fun e => e.is_directory)).map (fun e => path_filename e.path)),
      output_lines :=
        ["--- Descarga Finalizada ---",
         "Archivo: " ++ path_filename g.last_downloaded_file,
         "¿Dónde deseas mover el archivo?"] ++
        menu_numbered 0 (sort
          ((entries.filter (fun e => e.is_directory)).map (fun e => path_filename e.path))) ++
        ["-----------------------------",
         "N. Crear nueva carpeta",
         "Q. Dejar en " ++ MUSIC_DIR,
         "Introduce una opción y presiona Enter:"] }, ?_, hsp.2, hsp.1, ?_, ?_⟩
  · unfold show_organization_menu
    simp only [hlist, collect_dirs_eq, List.nil_append]
  · simp only [menu_numbered_eq]
  · intro k h1 hk
    obtain ⟨j, rfl⟩ : ∃ j, k = j + 1 := ⟨k - 1, by omega⟩
    have hget := menu_numbered_get
      (sort ((entries.filter (fun e => e.is_directory)).map (fun e => path_filename e.path))) 0 j
    simp only [Nat.zero_add] at hget
    have hlt : j < (menu_numbered 0
        (sort ((entries.filter (fun e => e.is_directory)).map
          (fun e => path_filename e.path)))).length := by
      simp only [menu_numbered_eq, List.length_map, List.enumFrom_length]
      exact hk
    simp only [Nat.add_sub_cancel]
    rw [← hget]
    show (_ :: _ :: _ :: (menu_numbered 0 _ ++ _)).get? (j + 1 + 2) = _
    simp only [List.get?_cons_succ]
    rw [List.get?_eq_getElem?, List.get?_eq_getElem?, List.getElem?_append_left hlt]

/-- C9, witness: the sample library, whose entries are two files and the folders
`/lib/Rock` and `/lib/Jazz`. -/
theorem menu_lists_sorted_subdirectories_witness :
    ∃ g', show_organization_menu "/lib" simFs Relock.blocks (simGlobals AppState.DOWNLOADING) =
        some g' ∧
      g'.music_dirs.Perm
        (((simFs.fs_directory_iterator simWorld "/lib").1.filter
          (fun e => e.is_directory)).map (fun e => path_filename e.path)) ∧
      g'.music_dirs.Sorted string_le ∧
      g'.output_lines =
        ["--- Descarga Finalizada ---",
         "Archivo: " ++ path_filename (simGlobals AppState.DOWNLOADING).last_downloaded_file,
         "¿Dónde deseas mover el archivo?"] ++
        (g'.music_dirs.enumFrom 1).map (fun p => to_string p.1 ++ ". " ++ p.2) ++
        ["-----------------------------",
         "N. Crear nueva carpeta",
         "Q. Dejar en " ++ "/lib",
         "Introduce una opción y presiona Enter:"] ∧
      (∀ k, 1 ≤ k → k ≤ g'.music_dirs.length →
        g'.output_lines.get? (k + 2) =
          (g'.music_dirs.get? (k - 1)).map (fun d => to_string k ++ ". " ++ d)) :=
  menu_lists_sorted_subdirectories "/lib" simFs Relock.blocks
    (simGlobals AppState.DOWNLOADING) _ rfl

end MenuClaims


/-! ## The end of a download -/

section DownloadClaims

variable {σ : Type} (MUSIC_DIR : String) (fs : Filesystem σ)

/-- The end of a download when `fs::exists` answers. Take any run of `run_download`
whose process launched and gave `output`. The read loop returns, in globals `g1` whose
`last_downloaded_file` is the artifact. Then: the run ends in state `ORGANIZING` only
if the artifact is non-empty and `fs::exists` answers `true` for it; and if the
artifact is empty or `fs::exists` answers `false` for it, the run returns with the
failure notice appended as the last log line, the earlier log still there (not
cleared), the folder candidates untouched, and the state `WAITING_FOR_SONG`. -/
theorem download_outcome (relock : Relock) (output song_name : String) (g : Globals σ) :
    ∃ g1,
      read_loop (output.data.length + 1) output.data
        (add_to_output ("Ejecutando: " ++ command MUSIC_DIR song_name)
          (run_download_begin g)) = some g1 ∧
      (∀ g', run_download MUSIC_DIR fs relock (some output) song_name g = some g' →
        g'.current_state = AppState.ORGANIZING →
        g1.last_downloaded_file ≠ "" ∧
        fs.fs_exists g1.world g1.last_downloaded_file = .ok true) ∧
      (g1.last_downloaded_file = "" ∨
          fs.fs_exists g1.world g1.last_downloaded_file = .ok false →
        ∃ g', run_download MUSIC_DIR fs relock (some output) song_name g = some g' ∧
          g'.output_lines = g1.output_lines ++
            ["--- No se pudo determinar el archivo descargado. Volviendo al inicio. ---"] ∧
          g.output_lines <+: g1.output_lines ∧
          g'.music_dirs = g.music_dirs ∧
          g'.current_state = AppState.WAITING_FOR_SONG) := by
  obtain ⟨g1, hg1⟩ := read_loop_returns (output.data.length + 1) output.data
    (add_to_output ("Ejecutando: " ++ command MUSIC_DIR song_name) (run_download_begin g))
    (by omega)
  obtain ⟨-, hdirs, -, -, hpre⟩ := read_loop_frame _ _ _ _ hg1
  have hrun : run_download MUSIC_DIR fs relock (some output) song_name g =
      run_download_end MUSIC_DIR fs relock g1 := by
    simp only [run_download, run_download_rest, hg1, Option.bind]
  refine ⟨g1, hg1, ?_, ?_⟩
  · intro g' hg' hst
    rw [hrun] at hg'
    unfold run_download_end at hg'
    by_cases hne : g1.last_downloaded_file = ""
    · simp only [hne, ne_eq, not_true_eq_false, if_false, Option.some.injEq] at hg'
      rw [← hg'] at hst
      exact absurd hst (by simp)
    · simp only [ne_eq, hne, not_false_eq_true, if_true] at hg'
      split at hg'
      · exact absurd hg' (by simp)
      · rename_i heq
        exact ⟨hne, heq⟩
      · simp only [Option.some.injEq] at hg'
        rw [← hg'] at hst
        exact absurd hst (by simp)
  · intro hbad
    have hend : run_download_end MUSIC_DIR fs relock g1 =
        some { add_to_output
            "--- No se pudo determinar el archivo descargado. Volviendo al inicio. ---" g1 with
          current_state := AppState.WAITING_FOR_SONG } := by
      unfold run_download_end
      rcases hbad with hempty | hmissing
      · simp [hempty]
      · by_cases hne : g1.last_downloaded_file = ""
        · simp [hne]
        · simp [hne, hmissing]
    refine ⟨_, hrun.trans hend, rfl, ?_, hdirs, rfl⟩
    exact (List.prefix_append _ _).trans hpre

/-- An output without the marker ends in `WAITING_FOR_SONG` with the failure notice
as the last line; the welcome line is still in the log. -/
theorem download_outcome_witness :
    ∃ g', run_download "/lib" simFs Relock.blocks (some "ERROR: no results\n") "test song"
        (simStart simWorld) = some g' ∧
      g'.output_lines.getLast? =
        some "--- No se pudo determinar el archivo descargado. Volviendo al inicio. ---" ∧
      (simStart simWorld).output_lines <+: g'.output_lines ∧
      g'.music_dirs = (simStart simWorld).music_dirs ∧
      g'.current_state = AppState.WAITING_FOR_SONG := by
  obtain ⟨g1, h1, -, h3⟩ :=
    download_outcome "/lib" simFs Relock.blocks "ERROR: no results\n" "test song"
      (simStart simWorld)
  have hart : g1.last_downloaded_file = "" := by
    have hsome : (read_loop ("ERROR: no results\n".data.length + 1) "ERROR: no results\n".data
        (add_to_output ("Ejecutando: " ++ command "/lib" "test song")
          (run_download_begin (simStart simWorld)))).map
        (fun h => h.last_downloaded_file) = some "" := by decide
    rw [h1] at hsome
    simpa using hsome
  obtain ⟨g', hg', hlines, hpre, hdirs, hst⟩ := h3 (Or.inl hart)
  refine ⟨g', hg', ?_, ?_, hdirs, hst⟩
  · rw [hlines, List.getLast?_concat]
  · rw [hlines]
    exact hpre.trans (List.prefix_append _ _)

set_option maxRecDepth 20000 in
/-- C6, the code at the failing input. The process announces the destination
`simLongPath`: the artifact is that path, non-empty, and it names a missing file (it
is neither a file nor a directory of the world). `fs::exists` throws on it, nothing in
`run_download` catches the exception, and the run does not return: no failure notice
is appended and the state is not set back to `WAITING_FOR_SONG`. `move_file` logs the
same exception of the same call and returns. -/
theorem missing_file_exists_throws :
    ((read_loop (simLongOutput.data.length + 1) simLongOutput.data
        (add_to_output ("Ejecutando: " ++ command "/lib" "test song")
          (run_download_begin (simStart simWorld)))).map
        (fun g => g.last_downloaded_file) = some simLongPath ∧
      simLongPath ≠ "" ∧ simLongPath ∉ simWorld.files ∧ simLongPath ∉ simWorld.dirs) ∧
    simFsNameMax.fs_exists simWorld simLongPath = .error "File name too long" ∧
    (run_download "/lib" simFsNameMax Relock.blocks (some simLongOutput) "test song"
        (simStart simWorld)).isNone = true ∧
    (run_download "/lib" simFsNameMax Relock.proceeds (some simLongOutput) "test song"
        (simStart simWorld)).isNone = true ∧
    ((move_file "/lib" simFsNameMax (String.mk (List.replicate 300 'a'))
        (simStart simWorld)).output_lines.getLast? =
      some "Error del sistema de archivos: File name too long") := by
  decide

/-- C7, the code at the failing input. The download ends with the existing artifact
`/lib/test song.mp3` and the listing of the library root fails. If a second lock of
`output_mutex` by its owner blocks, `run_download` never returns. If it goes through,
the error line is logged and `show_organization_menu` sets `WAITING_FOR_SONG`, but
`run_download` then sets `ORGANIZING`: the state after the run is `ORGANIZING`. -/
theorem listing_error_not_idle :
    (run_download "/lib" simFs Relock.blocks
        (some "[ExtractAudio] Destination: /lib/test song.mp3\n") "test song"
        (simStart simWorldUnreadable)).isNone = true ∧
    (run_download "/lib" simFs Relock.proceeds
        (some "[ExtractAudio] Destination: /lib/test song.mp3\n") "test song"
        (simStart simWorldUnreadable)).map
      (fun g => (g.current_state, g.output_lines.getLast?)) =
      some (AppState.ORGANIZING,
        some "Error al leer los directorios de música: Permission denied") := by
  decide

end DownloadClaims


/-! ## Runners in flight -/

section Runners

variable {σ : Type} (MUSIC_DIR : String) (fs : Filesystem σ)

/-- Enter detaches a thread only in state `WAITING_FOR_SONG`, a single one, and then
leaves the globals as they are. -/
theorem submit_detached (b : String) (g : Globals σ) :
    (submit MUSIC_DIR fs b g).detached = [] ∨
    ((submit MUSIC_DIR fs b g).detached = [b] ∧
      g.current_state = AppState.WAITING_FOR_SONG ∧ (submit MUSIC_DIR fs b g).g = g) := by
  by_cases hq : b = "q" ∨ b = "Q"
  · left
    by_cases hw : g.current_state = AppState.WAITING_FOR_SONG <;>
      simp [submit, main_key, ERR, hq, hw]
  · by_cases hb : b = ""
    · left; simp [submit, main_key, ERR, hb]
    · by_cases hw : g.current_state = AppState.WAITING_FOR_SONG
      · right; simp [submit, main_key, ERR, hq, hb, hw]
      · left
        by_cases ho : g.current_state = AppState.ORGANIZING
        · simp [submit, main_key, ERR, hq, hb, ho]
        · by_cases hc : g.current_state = AppState.CREATING_FOLDER
          · simp [submit, main_key, ERR, hq, hb, hc]
          · simp [submit, main_key, ERR, hq, hb, hw, ho, hc]

/-- While the state is `DOWNLOADING`, a submitted line other than `"q"` and `"Q"`
changes nothing. -/
theorem submit_downloading (b : String) (g : Globals σ)
    (hst : g.current_state = AppState.DOWNLOADING) (hq : ¬ (b = "q" ∨ b = "Q")) :
    (submit MUSIC_DIR fs b g).g = g := by
  unfold submit main_key
  by_cases hb : b = ""
  · simp [ERR, hb]
  · simp [ERR, hq, hb, hst]

theorem step_enter (relock : Relock) (s : System σ) (b : String) :
    step MUSIC_DIR fs relock s (.enter b) =
      if s.exited then s
      else
        { s with
          g := (submit MUSIC_DIR fs b s.g).g,
          exited := (submit MUSIC_DIR fs b s.g).exited,
          launched := s.launched ++ (submit MUSIC_DIR fs b s.g).detached } := rfl

theorem step_starts (relock : Relock) (s : System σ) :
    step MUSIC_DIR fs relock s .starts =
      match s.launched with
      | [] => s
      | song_name :: others =>
        { s with
          g := run_download_begin s.g,
          launched := others,
          running := s.running ++ [song_name] } := rfl

theorem step_finishes (relock : Relock) (s : System σ) (i : Nat) (process : Option String) :
    step MUSIC_DIR fs relock s (.finishes i process) =
      match s.running.get? i with
      | none => s
      | some song_name =>
        match run_download_rest MUSIC_DIR fs relock process song_name s.g with
        | none => s
        | some g => { s with g := g, running := s.running.eraseIdx i } := rfl

theorem one_runner_step (relock : Relock) (s : System σ) (e : Event)
    (hinv : one_runner s) (hcalm : calm s e = true) :
    one_runner (step MUSIC_DIR fs relock s e) := by
  obtain ⟨hfl, hrun, hlau⟩ := hinv
  unfold System.in_flight at hfl
  cases e with
  | enter b =>
    simp only [calm, Bool.and_eq_true, List.isEmpty_iff, Bool.not_eq_true',
      Bool.and_eq_false_iff, Bool.or_eq_false_iff, decide_eq_false_iff_not,
      Bool.or_eq_true, decide_eq_true_eq] at hcalm
    obtain ⟨hl, hnq⟩ := hcalm
    rw [step_enter]
    by_cases hex : s.exited = true
    · simp only [hex, if_true]
      exact ⟨hfl, hrun, hlau⟩
    · simp only [hex, Bool.false_eq_true, if_false, hl, List.nil_append]
      have hrun' : s.running ≠ [] → (submit MUSIC_DIR fs b s.g).g = s.g := by
        intro hr
        have hd := hrun hr
        refine submit_downloading MUSIC_DIR fs b s.g hd ?_
        rcases hnq with h | h
        · intro hb
          rcases hb with hb | hb
          · exact h.1 hb
          · exact h.2 hb
        · exact absurd hd h
      rcases submit_detached MUSIC_DIR fs b s.g with hd | ⟨hd, hw, hg⟩
      · refine ⟨?_, ?_, ?_⟩
        · simp only [System.in_flight, hd, List.length_nil]
          rw [hl] at hfl
          simpa using hfl
        · intro hr
          rw [hrun' hr]
          exact hrun hr
        · intro hne
          exact absurd hd hne
      · have hr : s.running = [] := by
          by_contra hr
          have := hrun hr
          rw [hw] at this
          exact absurd this (by decide)
        refine ⟨?_, ?_, ?_⟩
        · simp [System.in_flight, hd, hr]
        · intro hne
          exact absurd hr hne
        · intro _
          rw [hg]
          exact hw
  | starts =>
    rw [step_starts]
    cases hl : s.launched with
    | nil => exact ⟨hfl, hrun, hlau⟩
    | cons song others =>
      rw [hl] at hfl
      simp only [List.length_cons] at hfl
      have ho : others = [] := List.length_eq_zero.mp (by omega)
      have hr : s.running = [] := List.length_eq_zero.mp (by omega)
      subst ho
      refine ⟨?_, ?_, ?_⟩
      · simp [System.in_flight, hr]
      · intro _; rfl
      · intro hne; exact absurd rfl hne
  | finishes i process =>
    rw [step_finishes]
    cases hget : s.running.get? i with
    | none => exact ⟨hfl, hrun, hlau⟩
    | some song =>
      dsimp only
      cases hrest : run_download_rest MUSIC_DIR fs relock process song s.g with
      | none => exact ⟨hfl, hrun, hlau⟩
      | some g' =>
        dsimp only
        have hne : s.running ≠ [] := by
          intro h
          rw [h] at hget
          simp at hget
        have hlen : s.running.length = 1 := by
          have : 0 < s.running.length := List.length_pos.mpr hne
          omega
        have hl : s.launched = [] := List.length_eq_zero.mp (by omega)
        have hi : i = 0 := by
          have := (List.get?_eq_some.mp hget).1
          omega
        obtain ⟨x, hx⟩ := List.length_eq_one.mp hlen
        have herase : s.running.eraseIdx i = [] := by rw [hx, hi]; rfl
        refine ⟨?_, ?_, ?_⟩
        · simp [System.in_flight, hl, herase]
        · intro h; exact absurd herase h
        · intro h; exact absurd hl h

theorem one_runner_run (relock : Relock) : ∀ (events : List Event) (s : System σ),
    one_runner s → all_calm MUSIC_DIR fs relock s events = true →
    one_runner (run MUSIC_DIR fs relock s events) := by
  intro events
  induction events with
  | nil => intro s h _; exact h
  | cons e es ih =>
    intro s h hc
    simp only [all_calm, Bool.and_eq_true] at hc
    exact ih _ (one_runner_step MUSIC_DIR fs relock s e h hc.1) hc.2

end Runners


section RunnerClaims

variable {σ : Type} (MUSIC_DIR : String) (fs : Filesystem σ)

/-- C8, amended. Start from `WAITING_FOR_SONG` with no runner and let the events
"Enter pressed with buffer `b`", "runner starts" and "runner finishes" happen in any
order, but never Enter between the launch of a runner and its start, and never `"q"`
or `"Q"` submitted while the state is `DOWNLOADING`. Then in every state reached at
most one runner is in flight, and an Enter launches a runner only when the state is
`WAITING_FOR_SONG`. -/
theorem single_runner_when_calm (relock : Relock) (w : σ) (events : List Event)
    (hcalm : all_calm MUSIC_DIR fs relock (initial w) events = true) :
    (run MUSIC_DIR fs relock (initial w) events).in_flight ≤ 1 ∧
    (∀ b : String,
      (run MUSIC_DIR fs relock (initial w) events).in_flight <
          (step MUSIC_DIR fs relock (run MUSIC_DIR fs relock (initial w) events)
            (.enter b)).in_flight →
      (run MUSIC_DIR fs relock (initial w) events).g.current_state =
        AppState.WAITING_FOR_SONG) := by
  have hinit : one_runner (initial w) := by
    refine ⟨by simp [System.in_flight, initial], ?_, ?_⟩
    · intro h; exact absurd rfl h
    · intro h; exact absurd rfl h
  refine ⟨(one_runner_run MUSIC_DIR fs relock events (initial w) hinit hcalm).1, ?_⟩
  intro b hlt
  generalize run MUSIC_DIR fs relock (initial w) events = s at hlt ⊢
  rw [step_enter] at hlt
  by_cases hex : s.exited = true
  · simp [hex] at hlt
  · simp only [hex, Bool.false_eq_true, if_false, System.in_flight, List.length_append] at hlt
    rcases submit_detached MUSIC_DIR fs b s.g with hd | ⟨-, hw, -⟩
    · rw [hd] at hlt
      simp at hlt
    · exact hw

/-- C8, witness: a whole session over the sample library, then a second download. -/
theorem single_runner_when_calm_witness :
    (run "/lib" simFs Relock.blocks (initial simWorld)
      [.enter "test song", .starts,
       .finishes 0 (some "[ExtractAudio] Destination: /lib/test song.mp3\n"),
       .enter "1", .enter "next song", .starts]).in_flight ≤ 1 ∧
    (∀ b : String,
      (run "/lib" simFs Relock.blocks (initial simWorld)
        [.enter "test song", .starts,
         .finishes 0 (some "[ExtractAudio] Destination: /lib/test song.mp3\n"),
         .enter "1", .enter "next song", .starts]).in_flight <
          (step "/lib" simFs Relock.blocks
            (run "/lib" simFs Relock.blocks (initial simWorld)
              [.enter "test song", .starts,
               .finishes 0 (some "[ExtractAudio] Destination: /lib/test song.mp3\n"),
               .enter "1", .enter "next song", .starts])
            (.enter b)).in_flight →
      (run "/lib" simFs Relock.blocks (initial simWorld)
        [.enter "test song", .starts,
         .finishes 0 (some "[ExtractAudio] Destination: /lib/test song.mp3\n"),
         .enter "1", .enter "next song", .starts]).g.current_state =
        AppState.WAITING_FOR_SONG) :=
  single_runner_when_calm "/lib" simFs Relock.blocks simWorld
    [.enter "test song", .starts,
     .finishes 0 (some "[ExtractAudio] Destination: /lib/test song.mp3\n"),
     .enter "1", .enter "next song", .starts] (by decide)

/-- C8 as stated fails. After "a" is submitted and its runner has started, `"q"`
puts the state back to `WAITING_FOR_SONG` while that runner is still running, and
submitting "b" launches a second runner: two in flight. Also, two lines submitted
before the first thread has run its first statement launch two runners. -/
theorem two_runners_in_flight :
    ((run "/lib" simFs Relock.blocks (initial simWorld)
        [.enter "a", .starts, .enter "q"]).g.current_state = AppState.WAITING_FOR_SONG ∧
      (run "/lib" simFs Relock.blocks (initial simWorld)
        [.enter "a", .starts, .enter "q"]).running = ["a"]) ∧
    (run "/lib" simFs Relock.blocks (initial simWorld)
      [.enter "a", .starts, .enter "q", .enter "b"]).in_flight = 2 ∧
    (run "/lib" simFs Relock.blocks (initial simWorld)
      [.enter "a", .enter "b"]).in_flight = 2 := by
  decide

end RunnerClaims

end YtDlpTui
